import Mathlib

/-!
Verification development for the Flick scripting-language engine
(lexer → parser → tree-walking evaluator with lexical scoping,
record/interface types and a capability registry).

The definitions below are a shallow embedding of the repository's
TypeScript sources:

* `src/ast.ts`        → the `AST` inductive family,
* `src/parser.ts`     → the `Parser` namespace (token-stream recursive
                        descent, threaded through an explicit state and
                        a fuel parameter in place of general recursion),
* `src/interpreter.ts`→ the `Interp` namespace (environment chains,
                        heap-allocated objects/arrays/instances/closures,
                        fuelled mutually recursive evaluator).

Modelling conventions, stated once:
* JavaScript numbers are modelled as `Int`; floating-point behaviour
  (NaN, fractional division, 2^53 overflow) is outside the model and the
  corresponding evaluator branches return explicit errors.
* JavaScript `Map` insertion-order semantics are modelled by association
  lists with in-place update (`alistSet`).
* Mutable JS objects live in an explicit heap; mutable environment
  frames live in an explicit store; both are only ever appended to, so a
  parent environment index is always smaller than its child's index.
* Thrown JS exceptions are modelled by the `err` result constructor; the
  engine has no catch construct, so errors only propagate.
-/

namespace Flick

/-- Literal values as produced by the parser (string, number and the two
boolean keyword literals). -/
inductive Lit where
  | num (n : Int)
  | str (s : String)
  | bool (b : Bool)
  deriving DecidableEq, Repr

/-- Task parameter: name plus the (unchecked) type annotation. -/
structure Param where
  name : String
  paramType : String
  deriving DecidableEq, Repr

/-- Blueprint method signature (`TaskSignatureNode`): name and parameter
list only, no body. -/
structure TaskSig where
  name : String
  parameters : List Param
  deriving DecidableEq, Repr

mutual

/-- AST nodes, one constructor per variant of `ASTNode` in `src/ast.ts`.
The loop-variable field is called `var` (`variable` is reserved in Lean)
and the march-loop upper bound `stop` (`end` is reserved). -/
inductive AST where
  | program (body : List AST)
  | declareStmt (plugin : String) (argument : Option AST)
  | routeStmt (path : String) (body : List AST) (forward : Option String)
  | respondStmt (content : AST)
  | groupDecl (name : String) (fields : List VarDecl) (methods : List TaskDecl)
  | blueprintDecl (name : String) (methods : List TaskSig)
  | doImpl (blueprintName : String) (groupName : String) (methods : List TaskDecl)
  | taskStmt (t : TaskDecl)
  | varStmt (d : VarDecl)
  | assignment (target : AST) (value : AST)
  | printStmt (expressions : List AST)
  | ifStmt (conditions : List IfBranch)
  | eachLoop (var : String) (iterable : AST) (body : List AST)
  | marchLoop (var : String) (start : AST) (stop : AST) (body : List AST)
  | selectStmt (expression : AST) (cases : List SelectCase)
  | exprStmt (expression : AST)
  | binary (op : String) (left : AST) (right : AST)
  | unary (op : String) (operand : AST)
  | call (callee : AST) (args : List AST)
  | member (object : AST) (property : AST) (computed : Bool)
  | lit (l : Lit)
  | ident (name : String)
  | arrayLit (elements : List AST)
  | objectLit (properties : List (String × AST))
  | askExpr (prompt : AST)

/-- `VariableDeclarationNode`: `mutable` is true for `free`, false for
`lock`. -/
inductive VarDecl where
  | mk (name : String) (mutable : Bool) (varType : Option String)
      (initializer : Option AST)

/-- `TaskDeclarationNode`. -/
inductive TaskDecl where
  | mk (name : String) (parameters : List Param) (body : List AST)

/-- One guarded branch of an `IfStatementNode` (`condition = none` is the
`otherwise` default branch). -/
inductive IfBranch where
  | mk (condition : Option AST) (body : List AST)

/-- One `when` case of a `SelectStatementNode`: literal key, optional
`suppose` guard list, body. -/
inductive SelectCase where
  | mk (key : String) (conditions : List AST) (body : List AST)

end

def VarDecl.name : VarDecl → String
  | .mk n _ _ _ => n

def VarDecl.mutable : VarDecl → Bool
  | .mk _ m _ _ => m

def VarDecl.varType : VarDecl → Option String
  | .mk _ _ t _ => t

def VarDecl.initializer : VarDecl → Option AST
  | .mk _ _ _ i => i

def TaskDecl.name : TaskDecl → String
  | .mk n _ _ => n

def TaskDecl.parameters : TaskDecl → List Param
  | .mk _ p _ => p

def TaskDecl.body : TaskDecl → List AST
  | .mk _ _ b => b

def IfBranch.condition : IfBranch → Option AST
  | .mk c _ => c

def IfBranch.body : IfBranch → List AST
  | .mk _ b => b

def SelectCase.key : SelectCase → String
  | .mk k _ _ => k

def SelectCase.conditions : SelectCase → List AST
  | .mk _ c _ => c

def SelectCase.body : SelectCase → List AST
  | .mk _ _ b => b

/-- Is the AST node a plain identifier (the auto-invocation test in
`executePrint`)? -/
def AST.isIdent : AST → Bool
  | .ident _ => true
  | _ => false

/-! ### Association lists with JS `Map` semantics

`Map.get` / `Map.has` / `Map.set`: `set` updates an existing key in
place (preserving insertion order) and appends a new key at the end. -/

/-- `Map.get`: first value bound to `k`, if any. -/
def alistGet {β : Type} (l : List (String × β)) (k : String) : Option β :=
  match l with
  | [] => none
  | (k', v) :: t => if k' = k then some v else alistGet t k

/-- `Map.has`. -/
def alistHas {β : Type} (l : List (String × β)) (k : String) : Bool :=
  (alistGet l k).isSome

/-- `Map.set`: update in place or append. -/
def alistSet {β : Type} (l : List (String × β)) (k : String) (v : β) :
    List (String × β) :=
  match l with
  | [] => [(k, v)]
  | (k', v') :: t => if k' = k then (k, v) :: t else (k', v') :: alistSet t k v

/-! ## Interpreter runtime model (`src/interpreter.ts`)

Runtime values.  JS objects, arrays, instances and functions are
reference values in the source (`RuntimeValue = any`), so here they are
indices into an explicit heap; `===` on them is index equality, which
matches JS reference equality because the heap is append-only and every
source-level allocation allocates a fresh slot. -/

namespace Interp

/-- Runtime value. `undef` is JS `undefined` (e.g. a missing property);
`null` is the JS `null` used for missing initializers/arguments. -/
inductive Value where
  | num (n : Int)
  | str (s : String)
  | bool (b : Bool)
  | null
  | undef
  | ref (r : Nat)
  deriving DecidableEq, Repr

/-- One environment binding: value plus mutability flag. -/
structure Binding where
  value : Value
  mutable : Bool
  deriving DecidableEq, Repr

/-- One `Environment`: name → binding map plus optional parent index.
By construction a frame's parent always has a smaller index (parents
exist before their children are allocated). -/
structure Frame where
  vars : List (String × Binding)
  parent : Option Nat
  deriving DecidableEq, Repr

/-- Callable runtime objects: plain task closures (capture the defining
environment), bound methods (capture the instance field environment) and
group constructors. -/
inductive Fn where
  | task (node : TaskDecl) (envId : Nat)
  | method (node : TaskDecl) (instEnvId : Nat)
  | ctor (groupName : String)

/-- Instance allocation: group name, the instance's own field
environment, the field names for which accessors were defined, and the
remaining (data) properties, initialised with `__groupName` and the
bound methods.  The source also stores the `__env` object itself as a
property; an environment is not a first-class `Value` here, so that one
property is not modelled. -/
structure InstObj where
  groupName : String
  envId : Nat
  fieldNames : List String
  dataProps : List (String × Value)

/-- Heap objects: arrays, object literals, instances and functions. -/
inductive HeapObj where
  | arr (elems : List Value)
  | obj (props : List (String × Value))
  | inst (i : InstObj)
  | fn (f : Fn)

/-- `GroupDefinition`. -/
structure GroupDef where
  name : String
  fields : List VarDecl
  methods : List (String × TaskDecl)
  implementations : List (String × List (String × TaskDecl))

/-- `BlueprintDefinition`. -/
structure BlueprintDef where
  name : String
  methods : List (String × TaskSig)

/-- Whole interpreter state: environment store, heap, the interpreter's
`groups`/`blueprints` tables, recorded print output, and the pending
stdin lines consumed by `ask`. -/
structure State where
  envs : List Frame
  heap : List HeapObj
  groups : List (String × GroupDef)
  blueprints : List (String × BlueprintDef)
  output : List String
  input : List String

/-- Result of a statement/expression evaluation: a value with the
updated state, or a thrown error message together with the state at the
throw point (JS exceptions do not roll the heap back). -/
inductive Res (α : Type) where
  | ok (a : α) (st : State)
  | err (msg : String) (st : State)

/-- Value carried by an `ok` result. -/
def Res.value? {α : Type} : Res α → Option α
  | .ok a _ => some a
  | .err _ _ => none

/-- Message carried by an `err` result. -/
def Res.errMsg? {α : Type} : Res α → Option String
  | .ok _ _ => none
  | .err m _ => some m

/-- Final state of a result. -/
def Res.state {α : Type} : Res α → State
  | .ok _ st => st
  | .err _ st => st

/-- Recorded output in the final state of a result. -/
def Res.output {α : Type} (r : Res α) : List String :=
  r.state.output

def getFrame (st : State) (e : Nat) : Option Frame :=
  st.envs.get? e

def setFrame (st : State) (e : Nat) (f : Frame) : State :=
  { st with envs := st.envs.set e f }

/-- Allocate a fresh environment frame (`{ vars: new Map(), parent }`);
returns its index. -/
def allocEnv (st : State) (parent : Option Nat) : Nat × State :=
  (st.envs.length, { st with envs := st.envs ++ [⟨[], parent⟩] })

/-- Allocate a fresh heap object; returns its index. -/
def allocHeap (st : State) (o : HeapObj) : Nat × State :=
  (st.heap.length, { st with heap := st.heap ++ [o] })

def getHeap (st : State) (r : Nat) : Option HeapObj :=
  st.heap.get? r

def setHeap (st : State) (r : Nat) (o : HeapObj) : State :=
  { st with heap := st.heap.set r o }

/-- `typeof value === 'function'`. -/
def isFunction (st : State) : Value → Bool
  | .ref r => match getHeap st r with
    | some (.fn _) => true
    | _ => false
  | _ => false

/-- `lookupVariable`: walk the environment chain outward from `e`.  The
`p < e` guard keeps the walk finite on arbitrary stores (it always holds
on stores built by the evaluator: parents are older than their
children); the `gas` parameter, `e + 1` at the entry point, is the
resulting bound on the number of steps, making the recursion
structural. -/
def lookupVarGas (st : State) (name : String) : Nat → Nat → Option Value
  | 0, _ => none
  | gas + 1, e =>
    match getFrame st e with
    | none => none
    | some f =>
      match alistGet f.vars name with
      | some b => some b.value
      | none =>
        match f.parent with
        | some p => if p < e then lookupVarGas st name gas p else none
        | none => none

/-- `lookupVariable` from frame `e`. -/
def lookupVar (st : State) (name : String) (e : Nat) : Option Value :=
  lookupVarGas st name (e + 1) e

/-- `setVariable`: walk the chain to the nearest binding; error if the
name is unbound, error (state untouched) if the nearest binding is
immutable, otherwise overwrite it (the source re-sets the flag to
`mutable: true`, which is the only reachable value there).  Same `gas`
device as `lookupVarGas`. -/
def setVarGas (st : State) (name : String) (v : Value) :
    Nat → Nat → Except String State
  | 0, _ => .error ("Undefined variable: " ++ name)
  | gas + 1, e =>
    match getFrame st e with
    | none => .error ("Undefined variable: " ++ name)
    | some f =>
      match alistGet f.vars name with
      | some b =>
        if b.mutable then
          .ok (setFrame st e { f with vars := alistSet f.vars name ⟨v, true⟩ })
        else
          .error ("Cannot reassign immutable variable: " ++ name)
      | none =>
        match f.parent with
        | some p =>
          if p < e then setVarGas st name v gas p
          else .error ("Undefined variable: " ++ name)
        | none => .error ("Undefined variable: " ++ name)

/-- `setVariable` from frame `e`. -/
def setVar (st : State) (name : String) (v : Value) (e : Nat) :
    Except String State :=
  setVarGas st name v (e + 1) e

/-- `isTruthy`: only `null`, `undefined` and `false` are falsy (`0` and
`""` are truthy in this engine). -/
def isTruthy : Value → Bool
  | .null => false
  | .undef => false
  | .bool b => b
  | _ => true

/-- JS `===` on the value domain: structural on primitives, reference
equality on heap values. -/
def jsStrictEq : Value → Value → Bool
  | .num a, .num b => a = b
  | .str a, .str b => a = b
  | .bool a, .bool b => a = b
  | .null, .null => true
  | .undef, .undef => true
  | .ref a, .ref b => a = b
  | _, _ => false

/-- Decimal rendering of an integer, as JS `Number.prototype.toString`
renders integral numbers. -/
def numToString (n : Int) : String :=
  toString n

/-- TS AST `type` tag of a node, for error messages. -/
def nodeType : AST → String
  | .program _ => "Program"
  | .declareStmt _ _ => "DeclareStatement"
  | .routeStmt _ _ _ => "RouteStatement"
  | .respondStmt _ => "RespondStatement"
  | .groupDecl _ _ _ => "GroupDeclaration"
  | .blueprintDecl _ _ => "BlueprintDeclaration"
  | .doImpl _ _ _ => "DoImplementation"
  | .taskStmt _ => "TaskDeclaration"
  | .varStmt _ => "VariableDeclaration"
  | .assignment _ _ => "Assignment"
  | .printStmt _ => "PrintStatement"
  | .ifStmt _ => "IfStatement"
  | .eachLoop _ _ _ => "EachLoop"
  | .marchLoop _ _ _ _ => "MarchLoop"
  | .selectStmt _ _ => "SelectStatement"
  | .exprStmt _ => "ExpressionStatement"
  | .binary _ _ _ => "BinaryExpression"
  | .unary _ _ => "UnaryExpression"
  | .call _ _ => "CallExpression"
  | .member _ _ _ => "MemberExpression"
  | .lit _ => "Literal"
  | .ident _ => "Identifier"
  | .arrayLit _ => "ArrayLiteral"
  | .objectLit _ => "ObjectLiteral"
  | .askExpr _ => "AskExpression"

/-- Runtime value of a parsed literal. -/
def litVal : Lit → Value
  | .num n => .num n
  | .str s => .str s
  | .bool b => .bool b

/-- Placeholder for JS `String(fn)`/`fn.toString()`, which would print
the closure's source text; the model does not carry source text. -/
def funSourceString : String :=
  "[closure source]"

/-- JS `String(v)` / `ToString` on the value domain, with `fuel`
bounding ref-chasing depth (`st.heap.length + 1` suffices for any
acyclic heap; the engine can only build a cyclic heap through member
assignment, after which JS itself would recurse forever here).  Arrays
render as `Array.prototype.toString`: elements joined with `,`, with
`null`/`undefined` elements rendered empty; plain objects and instances
render as `[object Object]`. -/
def jsToString (st : State) : Nat → Value → String
  | _, .num n => numToString n
  | _, .str s => s
  | _, .bool b => if b then "true" else "false"
  | _, .null => "null"
  | _, .undef => "undefined"
  | 0, .ref _ => "[cyclic]"
  | fuel + 1, .ref r =>
    match getHeap st r with
    | some (.arr elems) =>
      String.intercalate ","
        (elems.map fun v =>
          match v with
          | .null => ""
          | .undef => ""
          | v => jsToString st fuel v)
    | some (.obj _) => "[object Object]"
    | some (.inst _) => "[object Object]"
    | some (.fn _) => funSourceString
    | none => "undefined"

/-- Minimal JSON string escaping (quote and backslash; the claims never
print strings needing further escapes). -/
def jsonEscape (s : String) : String :=
  s.foldl
    (fun acc c =>
      if c = '"' then acc ++ "\\\""
      else if c = '\\' then acc ++ "\\\\"
      else acc.push c)
    ""

/-- JS `JSON.stringify` on the value domain (`none` = the JS result
`undefined`, produced for `undefined` and functions).  Instances
serialise their `__groupName`/field/method properties in definition
order, functions being skipped; the `__env` property of the source
instance object (a serialisable environment record) is not modelled. -/
def jsonStr (st : State) : Nat → Value → Option String
  | _, .num n => some (numToString n)
  | _, .str s => some ("\"" ++ jsonEscape s ++ "\"")
  | _, .bool b => some (if b then "true" else "false")
  | _, .null => some "null"
  | _, .undef => none
  | 0, .ref _ => some "[cyclic]"
  | fuel + 1, .ref r =>
    match getHeap st r with
    | some (.arr elems) =>
      some ("[" ++
        String.intercalate ","
          (elems.map fun v => (jsonStr st fuel v).getD "null") ++ "]")
    | some (.obj props) =>
      some ("\x7b" ++
        String.intercalate ","
          (props.filterMap fun p =>
            (jsonStr st fuel p.2).map
              (fun s => "\"" ++ jsonEscape p.1 ++ "\":" ++ s)) ++ "\x7d")
    | some (.inst i) =>
      some ("\x7b" ++
        String.intercalate ","
          (("\"__groupName\":\"" ++ jsonEscape i.groupName ++ "\"") ::
            (i.fieldNames.filterMap fun fname =>
              match getFrame st i.envId with
              | some f =>
                match alistGet f.vars fname with
                | some b =>
                  (jsonStr st fuel b.value).map
                    (fun s => "\"" ++ jsonEscape fname ++ "\":" ++ s)
                | none => none
              | none => none) ++
            (i.dataProps.filterMap fun p =>
              if p.1 = "__groupName" then none
              else
                (jsonStr st fuel p.2).map
                  (fun s => "\"" ++ jsonEscape p.1 ++ "\":" ++ s))) ++ "\x7d")
    | some (.fn _) => none
    | none => none

/-- `Interpreter.stringify`: strings unchanged, numbers in decimal,
booleans as `yes`/`no`, `null`/`undefined` as `null`, arrays and
objects as JSON, functions fall through to `String(value)`. -/
def stringify (st : State) (v : Value) : String :=
  match v with
  | .str s => s
  | .num n => numToString n
  | .bool b => if b then "yes" else "no"
  | .null => "null"
  | .undef => "null"
  | .ref r =>
    match getHeap st r with
    | some (.fn _) => funSourceString
    | _ => (jsonStr st (st.heap.length + 1) v).getD "undefined"

/-- JS `ToPrimitive` for the value domain: heap values become their
string conversion (the default `toString` of arrays/objects/functions),
primitives are unchanged. -/
def toPrim (st : State) (v : Value) : Value :=
  match v with
  | .ref _ => .str (jsToString st (st.heap.length + 1) v)
  | v => v

/-- Primitive `ToString` after `toPrim` (primitive inputs only). -/
def primToString : Value → String
  | .num n => numToString n
  | .str s => s
  | .bool b => if b then "true" else "false"
  | .null => "null"
  | .undef => "undefined"
  | .ref _ => ""

/-- Primitive `ToNumber` for the non-string operands `+` can see after
`ToPrimitive` (`none` = NaN, which the `Int` model cannot represent;
string numeric parsing also falls outside the model, but `+` never
number-coerces a string operand). -/
def primToNumber : Value → Option Int
  | .num n => some n
  | .bool b => some (if b then 1 else 0)
  | .null => some 0
  | _ => none

/-- JS `left + right`: after `ToPrimitive`, string concatenation if
either side is a string, otherwise numeric addition with `ToNumber`
coercion of booleans and `null`.  `undefined + non-string` is NaN and
reported as a model error. -/
def jsAdd (st : State) (l r : Value) : Except String Value :=
  let lp := toPrim st l
  let rp := toPrim st r
  match lp, rp with
  | .str a, b => .ok (.str (a ++ primToString b))
  | a, .str b => .ok (.str (primToString a ++ b))
  | a, b =>
    match primToNumber a, primToNumber b with
    | some x, some y => .ok (.num (x + y))
    | _, _ => .error "model: NaN arithmetic is not modelled"

/-- JS `-`, `*` on numbers; coercion of non-numeric operands (which JS
would push through `ToNumber`, possibly to NaN) is outside the model. -/
def jsArith (op : String) (l r : Value) : Except String Value :=
  match l, r with
  | .num a, .num b =>
    if op = "-" then .ok (.num (a - b))
    else .ok (.num (a * b))
  | _, _ => .error "model: numeric coercion is not modelled"

/-- JS `/` on numbers, restricted to exact integer quotients (fractional
results are floating point, outside the model). -/
def jsDiv (l r : Value) : Except String Value :=
  match l, r with
  | .num a, .num b =>
    if b ≠ 0 ∧ b ∣ a then .ok (.num (a / b))
    else .error "model: non-integer division is not modelled"
  | _, _ => .error "model: numeric coercion is not modelled"

/-- JS `<`, `>`, `<=`, `>=` on two numbers or two strings (mixed-type
relational coercion is outside the model). -/
def jsCompare (op : String) (l r : Value) : Except String Value :=
  match l, r with
  | .num a, .num b =>
    .ok (.bool
      (if op = "<" then a < b
       else if op = ">" then a > b
       else if op = "<=" then a ≤ b
       else a ≥ b))
  | .str a, .str b =>
    .ok (.bool
      (if op = "<" then a < b
       else if op = ">" then b < a
       else if op = "<=" then a ≤ b
       else b ≤ a))
  | _, _ => .error "model: relational coercion is not modelled"

/-- Dispatch of the shared binary-operator switch used by both
`evaluateBinaryExpression` and the sync evaluator. -/
def applyBinop (st : State) (op : String) (l r : Value) : Except String Value :=
  if op = "+" then jsAdd st l r
  else if op = "-" ∨ op = "*" then jsArith op l r
  else if op = "/" then jsDiv l r
  else if op = "==" then .ok (.bool (jsStrictEq l r))
  else if op = "!=" then .ok (.bool (!jsStrictEq l r))
  else if op = "<" ∨ op = ">" ∨ op = "<=" ∨ op = ">=" then jsCompare op l r
  else .error ("Unknown binary operator: " ++ op)

/-- `env.vars.set(name, binding)` on frame `e` (unconditional define /
overwrite, as used by declarations, parameter binding and loop
variables).  A missing frame is unreachable in evaluator-built states. -/
def defineIn (st : State) (e : Nat) (name : String) (b : Binding) : State :=
  match getFrame st e with
  | some f => setFrame st e { f with vars := alistSet f.vars name b }
  | none => st

/-- Append heap closures for a method table and record them as instance
data properties (`instance[methodName] = async (...) => ...`). -/
def bindMethods (methods : List (String × TaskDecl)) (e : Nat)
    (props : List (String × Value)) (st : State) :
    List (String × Value) × State :=
  match methods with
  | [] => (props, st)
  | (mname, node) :: rest =>
    let (r, st') := allocHeap st (.fn (.method node e))
    bindMethods rest e (alistSet props mname (.ref r)) st'

/-- Same, folded over every blueprint implementation table. -/
def bindImpls (impls : List (String × List (String × TaskDecl))) (e : Nat)
    (props : List (String × Value)) (st : State) :
    List (String × Value) × State :=
  match impls with
  | [] => (props, st)
  | (_, methods) :: rest =>
    let (props', st') := bindMethods methods e props st
    bindImpls rest e props' st'

mutual

/-- `evaluateExpressionSync`: the restricted synchronous evaluator used
for field initializers during instantiation. -/
def evalExprSync : Nat → AST → Nat → State → Res Value
  | 0, _, _, st => .err "model: out of fuel" st
  | fuel + 1, node, env, st =>
    match node with
    | .lit l => .ok (litVal l) st
    | .ident name =>
      match lookupVar st name env with
      | some v => .ok v st
      | none => .err ("Undefined variable: " ++ name) st
    | .binary op left right =>
      match evalExprSync fuel left env st with
      | .err m st' => .err m st'
      | .ok lv st1 =>
        match evalExprSync fuel right env st1 with
        | .err m st' => .err m st'
        | .ok rv st2 =>
          match applyBinop st2 op lv rv with
          | .ok v => .ok v st2
          | .error m => .err m st2
    | .arrayLit elems =>
      match evalExprsSync fuel elems env st with
      | .err m st' => .err m st'
      | .ok vs st1 =>
        let (r, st2) := allocHeap st1 (.arr vs)
        .ok (.ref r) st2
    | .objectLit props =>
      match evalPropsSync fuel props env st with
      | .err m st' => .err m st'
      | .ok ps st1 =>
        let (r, st2) := allocHeap st1 (.obj ps)
        .ok (.ref r) st2
    | .call callee args =>
      match evalExprSync fuel callee env st with
      | .err m st' => .err m st'
      | .ok cv st1 =>
        match evalExprsSync fuel args env st1 with
        | .err m st' => .err m st'
        | .ok avs st2 =>
          match cv with
          | .ref r =>
            match getHeap st2 r with
            | some (.fn f) => callFnSync fuel f avs st2
            | _ => .err "Not a function" st2
          | _ => .err "Not a function" st2
    | other => .err ("Cannot evaluate " ++ nodeType other ++ " synchronously") st

  termination_by structural fuel _ _ _ => fuel

/-- Synchronous left-to-right evaluation of an expression list. -/
def evalExprsSync : Nat → List AST → Nat → State → Res (List Value)
  | 0, _, _, st => .err "model: out of fuel" st
  | _ + 1, [], _, st => .ok [] st
  | fuel + 1, e :: rest, env, st =>
    match evalExprSync fuel e env st with
    | .err m st' => .err m st'
    | .ok v st1 =>
      match evalExprsSync fuel rest env st1 with
      | .err m st' => .err m st'
      | .ok vs st2 => .ok (v :: vs) st2

  termination_by structural fuel _ _ _ => fuel

/-- Synchronous evaluation of object-literal properties. -/
def evalPropsSync : Nat → List (String × AST) → Nat → State → Res (List (String × Value))
  | 0, _, _, st => .err "model: out of fuel" st
  | _ + 1, [], _, st => .ok [] st
  | fuel + 1, (k, e) :: rest, env, st =>
    match evalExprSync fuel e env st with
    | .err m st' => .err m st'
    | .ok v st1 =>
      match evalPropsSync fuel rest env st1 with
      | .err m st' => .err m st'
      | .ok ps st2 => .ok ((k, v) :: ps) st2

  termination_by structural fuel _ _ _ => fuel

/-- Synchronous call: group constructors run synchronously; task and
method closures are `async` functions in the source, so a synchronous
call would yield a pending Promise (whose eagerly started side effects
the model does not replay). -/
def callFnSync : Nat → Fn → List Value → State → Res Value
  | 0, _, _, st => .err "model: out of fuel" st
  | fuel + 1, f, args, st =>
    match f with
    | .ctor g => instantiateGroup fuel g args st
    | .task _ _ => .err "model: async closure called synchronously" st
    | .method _ _ => .err "model: async closure called synchronously" st

  termination_by structural fuel _ _ _ => fuel

/-- `instantiateGroup`: allocate a fresh field environment whose parent
is the global environment (index 0), initialise the declared fields in
order, then bind methods and blueprint-implementation overrides as
closures over that environment, and allocate the instance object. -/
def instantiateGroup : Nat → String → List Value → State → Res Value
  | 0, _, _, st => .err "model: out of fuel" st
  | fuel + 1, groupName, args, st =>
    match alistGet st.groups groupName with
    | none => .err ("Unknown group: " ++ groupName) st
    | some gdef =>
      let (e, st1) := allocEnv st (some 0)
      match initFields fuel gdef.fields args 0 e st1 with
      | .err m st' => .err m st'
      | .ok _ st2 =>
        let (props1, st3) :=
          bindMethods gdef.methods e [("__groupName", .str groupName)] st2
        let (props2, st4) := bindImpls gdef.implementations e props1 st3
        let (r, st5) :=
          allocHeap st4 (.inst ⟨groupName, e, gdef.fields.map VarDecl.name, props2⟩)
        .ok (.ref r) st5

  termination_by structural fuel _ _ _ => fuel

/-- The field-initialisation loop of `instantiateGroup`: a field with an
initializer evaluates it (synchronously, in the partially built field
environment) and leaves `argIndex` alone; a field without one consumes
`args[argIndex]` if it exists, else `null`. -/
def initFields : Nat → List VarDecl → List Value → Nat → Nat → State → Res Unit
  | 0, _, _, _, _, st => .err "model: out of fuel" st
  | _ + 1, [], _, _, _, st => .ok () st
  | fuel + 1, fld :: rest, args, argIndex, e, st =>
    match fld.initializer with
    | some init =>
      match evalExprSync fuel init e st with
      | .err m st' => .err m st'
      | .ok v st1 =>
        initFields fuel rest args argIndex e
          (defineIn st1 e fld.name ⟨v, fld.mutable⟩)
    | none =>
      match args.get? argIndex with
      | some v =>
        initFields fuel rest args (argIndex + 1) e
          (defineIn st e fld.name ⟨v, fld.mutable⟩)
      | none =>
        initFields fuel rest args argIndex e
          (defineIn st e fld.name ⟨.null, fld.mutable⟩)
  termination_by structural fuel _ _ _ _ _ => fuel

end

/-- Canonical array index: `some i` when `key` is the decimal rendering
of a natural number (JS array index keys are canonical strings). -/
def arrayIndex? (key : String) : Option Nat :=
  match key.toNat? with
  | some i => if toString i = key then some i else none
  | none => none

/-- JS property-key conversion of a computed member expression's
property value. -/
def propKey (st : State) (v : Value) : String :=
  jsToString st (st.heap.length + 1) v

/-- Property read `obj[prop]` as performed by `evaluateMemberExpression`
and the member special case of `ExpressionStatement`.  Reads of built-in
method properties (e.g. function `length`) are not modelled and yield
`undefined`. -/
def memberGet (st : State) (objV : Value) (key : String) : Except String Value :=
  match objV with
  | .ref r =>
    match getHeap st r with
    | some (.obj props) => .ok ((alistGet props key).getD .undef)
    | some (.arr elems) =>
      if key = "length" then .ok (.num elems.length)
      else
        match arrayIndex? key with
        | some i => .ok ((elems.get? i).getD .undef)
        | none => .ok .undef
    | some (.inst i) =>
      if key ∈ i.fieldNames then
        match getFrame st i.envId with
        | some f => .ok (((alistGet f.vars key).map Binding.value).getD .undef)
        | none => .ok .undef
      else .ok ((alistGet i.dataProps key).getD .undef)
    | some (.fn _) => .ok .undef
    | none => .ok .undef
  | .str s =>
    if key = "length" then .ok (.num s.length)
    else
      match arrayIndex? key with
      | some i =>
        if i < s.length then .ok (.str (String.singleton (s.get ⟨i⟩))) else .ok .undef
      | none => .ok .undef
  | .num _ => .ok .undef
  | .bool _ => .ok .undef
  | .null => .error ("Cannot read properties of null (reading " ++ key ++ ")")
  | .undef => .error ("Cannot read properties of undefined (reading " ++ key ++ ")")

/-- Property write `obj[prop] = value` from the member-assignment branch
of `assignVariable`.  Writing an instance field goes through the
accessor defined at instantiation: immutable fields throw, mutable ones
update the field environment; any other instance key becomes a plain
data property.  Array writes beyond in-place/append updates and writes
to primitives are outside the model. -/
def memberSet (st : State) (objV : Value) (key : String) (v : Value) :
    Except String State :=
  match objV with
  | .ref r =>
    match getHeap st r with
    | some (.obj props) => .ok (setHeap st r (.obj (alistSet props key v)))
    | some (.arr elems) =>
      (match arrayIndex? key with
       | some i =>
         if i < elems.length then .ok (setHeap st r (.arr (elems.set i v)))
         else if i = elems.length then .ok (setHeap st r (.arr (elems ++ [v])))
         else .error "model: sparse array assignment is not modelled"
       | none => .error "model: array property assignment is not modelled")
    | some (.inst i) =>
      if key ∈ i.fieldNames then
        match getFrame st i.envId with
        | some f =>
          match alistGet f.vars key with
          | some b =>
            if b.mutable then .ok (defineIn st i.envId key ⟨v, true⟩)
            else .error ("Cannot reassign immutable variable: " ++ key)
          | none => .error ("Cannot reassign immutable variable: " ++ key)
        | none => .error ("Cannot reassign immutable variable: " ++ key)
      else .ok (setHeap st r (.inst { i with dataProps := alistSet i.dataProps key v }))
    | some (.fn _) => .error "model: function property assignment is not modelled"
    | none => .error "model: dangling reference"
  | .null => .error ("Cannot set properties of null (setting " ++ key ++ ")")
  | .undef => .error ("Cannot set properties of undefined (setting " ++ key ++ ")")
  | _ => .error "model: property assignment on a primitive is not modelled"

/-- `hasOwnProperty` as used by `executeSelect` on the subject value. -/
def hasOwnProp (st : State) (v : Value) (key : String) : Except String Bool :=
  match v with
  | .ref r =>
    match getHeap st r with
    | some (.obj props) => .ok (alistHas props key)
    | some (.arr elems) =>
      .ok ((key == "length") || (arrayIndex? key).any (· < elems.length))
    | some (.inst i) =>
      .ok (i.fieldNames.contains key || alistHas i.dataProps key)
    | some (.fn _) => .ok false
    | none => .ok false
  | .str s => .ok ((key == "length") || (arrayIndex? key).any (· < s.length))
  | .num _ => .ok false
  | .bool _ => .ok false
  | .null => .error "Cannot read properties of null (reading hasOwnProperty)"
  | .undef => .error "Cannot read properties of undefined (reading hasOwnProperty)"

/-- Bind task parameters positionally, missing arguments as `null`, all
mutable. -/
def bindParams (params : List Param) (args : List Value) (e : Nat)
    (st : State) : State :=
  match params, args with
  | [], _ => st
  | p :: ps, [] => bindParams ps [] e (defineIn st e p.name ⟨.null, true⟩)
  | p :: ps, a :: as_ => bindParams ps as_ e (defineIn st e p.name ⟨a, true⟩)

/-- Method table of a group/implementation declaration (`Map` built in
declaration order, later duplicates overwriting). -/
def methodTable (methods : List TaskDecl) : List (String × TaskDecl) :=
  methods.foldl (fun acc m => alistSet acc m.name m) []

/-- Signature table of a blueprint declaration. -/
def sigTable (methods : List TaskSig) : List (String × TaskSig) :=
  methods.foldl (fun acc m => alistSet acc m.name m) []

/-- Plugins registered by the runner (`registerPlugin` calls in
`runner.ts`). -/
def registeredPlugins : List String :=
  ["web", "files", "time", "random"]

set_option maxHeartbeats 1600000

mutual

/-- `evaluateStatement`. -/
def evalStmt : Nat → AST → Nat → State → Res Value
  | 0, _, _, st => .err "model: out of fuel" st
  | fuel + 1, node, env, st =>
    match node with
    | .program body =>
      match evalStmts fuel body env st with
      | .err m st' => .err m st'
      | .ok _ st1 => .ok .null st1
    | .declareStmt plugin argument =>
      -- `handleDeclare`: plugin lookup, argument evaluation, then the
      -- plugin's `registerBuiltins` hook.  Only the web plugin (whose
      -- hook is a no-op, see `builtins.ts`) is modelled; the built-in
      -- values injected by the other plugins are outside the model.
      if plugin ∈ registeredPlugins then
        match argument with
        | some arg =>
          match evalExpr fuel arg env st with
          | .err m st' => .err m st'
          | .ok _ st1 =>
            if plugin = "web" then .ok .null st1
            else .err "model: plugin built-ins are not modelled" st1
        | none =>
          if plugin = "web" then .ok .null st
          else .err "model: plugin built-ins are not modelled" st
      else .err ("Unknown plugin: " ++ plugin) st
    | .routeStmt _ _ _ => .ok .null st
    | .respondStmt content =>
      -- `handleRespond` → the web plugin's `execute` hook: evaluate the
      -- content, stringify it, return a `__respond` payload object.
      match evalExpr fuel content env st with
      | .err m st' => .err m st'
      | .ok v st1 =>
        let payload : HeapObj :=
          .obj [("__respond", .bool true), ("content", .str (stringify st1 v))]
        let (r, st2) := allocHeap st1 payload
        .ok (.ref r) st2
    | .groupDecl name fields methods =>
      let st1 :=
        { st with groups := alistSet st.groups name ⟨name, fields, methodTable methods, []⟩ }
      let (r, st2) := allocHeap st1 (.fn (.ctor name))
      .ok .null (defineIn st2 env name ⟨.ref r, false⟩)
    | .blueprintDecl name methods =>
      .ok .null
        { st with blueprints := alistSet st.blueprints name ⟨name, sigTable methods⟩ }
    | .doImpl blueprintName groupName methods =>
      match alistGet st.groups groupName with
      | none => .err ("Unknown group: " ++ groupName) st
      | some gdef =>
        let gdef' :=
          { gdef with
            implementations :=
              alistSet gdef.implementations blueprintName (methodTable methods) }
        .ok .null { st with groups := alistSet st.groups groupName gdef' }
    | .taskStmt t =>
      let (r, st1) := allocHeap st (.fn (.task t env))
      .ok .null (defineIn st1 env t.name ⟨.ref r, false⟩)
    | .varStmt d =>
      match d.initializer with
      | some init =>
        match evalExpr fuel init env st with
        | .err m st' => .err m st'
        | .ok v st1 => .ok .null (defineIn st1 env d.name ⟨v, d.mutable⟩)
      | none => .ok .null (defineIn st env d.name ⟨.null, d.mutable⟩)
    | .assignment target value =>
      match evalExpr fuel value env st with
      | .err m st' => .err m st'
      | .ok v st1 =>
        match target with
        | .ident name =>
          match setVar st1 name v env with
          | .ok st2 => .ok v st2
          | .error m => .err m st1
        | .member objNode propNode computed =>
          match evalExpr fuel objNode env st1 with
          | .err m st' => .err m st'
          | .ok objV st2 =>
            match memberKey fuel propNode computed env st2 with
            | .err m st' => .err m st'
            | .ok key st3 =>
              match memberSet st3 objV key v with
              | .ok st4 => .ok v st4
              | .error m => .err m st3
        | _ => .ok v st1
    | .printStmt expressions => executePrint fuel expressions env st
    | .ifStmt conditions => executeIf fuel conditions env st
    | .eachLoop var iterable body => executeEachLoop fuel var iterable body env st
    | .marchLoop var start stop body => executeMarchLoop fuel var start stop body env st
    | .selectStmt expression cases => executeSelect fuel expression cases env st
    | .exprStmt expression =>
      match expression with
      | .member objNode propNode computed =>
        -- member expressions in statement position auto-invoke callables
        match evalExpr fuel objNode env st with
        | .err m st' => .err m st'
        | .ok objV st1 =>
          match memberKey fuel propNode computed env st1 with
          | .err m st' => .err m st'
          | .ok key st2 =>
            match memberGet st2 objV key with
            | .error m => .err m st2
            | .ok methodV =>
              if isFunction st2 methodV then callValue fuel methodV [] st2
              else .ok methodV st2
      | _ => evalExpr fuel expression env st
    | other => .err ("Unknown statement type: " ++ nodeType other) st

  termination_by structural fuel _ _ _ => fuel

/-- Sequential statement-list execution (the `for (const statement of
body)` loops). -/
def evalStmts : Nat → List AST → Nat → State → Res Unit
  | 0, _, _, st => .err "model: out of fuel" st
  | _ + 1, [], _, st => .ok () st
  | fuel + 1, s :: rest, env, st =>
    match evalStmt fuel s env st with
    | .err m st' => .err m st'
    | .ok _ st1 => evalStmts fuel rest env st1

  termination_by structural fuel _ _ _ => fuel

/-- `evaluateExpression`. -/
def evalExpr : Nat → AST → Nat → State → Res Value
  | 0, _, _, st => .err "model: out of fuel" st
  | fuel + 1, node, env, st =>
    match node with
    | .lit l => .ok (litVal l) st
    | .ident name =>
      match lookupVar st name env with
      | some v => .ok v st
      | none => .err ("Undefined variable: " ++ name) st
    | .binary op left right =>
      match evalExpr fuel left env st with
      | .err m st' => .err m st'
      | .ok lv st1 =>
        match evalExpr fuel right env st1 with
        | .err m st' => .err m st'
        | .ok rv st2 =>
          match applyBinop st2 op lv rv with
          | .ok v => .ok v st2
          | .error m => .err m st2
    | .unary op operand =>
      match evalExpr fuel operand env st with
      | .err m st' => .err m st'
      | .ok v st1 =>
        if op = "-" then
          match v with
          | .num n => .ok (.num (-n)) st1
          | _ => .err "model: numeric coercion is not modelled" st1
        else .err ("Unknown unary operator: " ++ op) st1
    | .call callee args =>
      match evalExpr fuel callee env st with
      | .err m st' => .err m st'
      | .ok cv st1 =>
        match evalExprs fuel args env st1 with
        | .err m st' => .err m st'
        | .ok avs st2 =>
          if isFunction st2 cv then callValue fuel cv avs st2
          else .err "Not a function" st2
    | .member objNode propNode computed =>
      match evalExpr fuel objNode env st with
      | .err m st' => .err m st'
      | .ok objV st1 =>
        match memberKey fuel propNode computed env st1 with
        | .err m st' => .err m st'
        | .ok key st2 =>
          match memberGet st2 objV key with
          | .ok v => .ok v st2
          | .error m => .err m st2
    | .arrayLit elements =>
      match evalExprs fuel elements env st with
      | .err m st' => .err m st'
      | .ok vs st1 =>
        let (r, st2) := allocHeap st1 (.arr vs)
        .ok (.ref r) st2
    | .objectLit properties =>
      match evalProps fuel properties env st with
      | .err m st' => .err m st'
      | .ok ps st1 =>
        let (r, st2) := allocHeap st1 (.obj ps)
        .ok (.ref r) st2
    | .askExpr prompt =>
      -- `evaluateAsk` writes the prompt to the terminal (not to the
      -- recorded output) and suspends until a stdin line arrives; the
      -- model draws that line from the `input` list.
      match evalExpr fuel prompt env st with
      | .err m st' => .err m st'
      | .ok _ st1 =>
        match st1.input with
        | line :: rest => .ok (.str line) { st1 with input := rest }
        | [] => .err "model: blocked on input" st1
    | other => .err ("Unknown statement type: " ++ nodeType other) st

  termination_by structural fuel _ _ _ => fuel

/-- Property key of a member expression: the identifier's name when not
computed, otherwise the evaluated property converted to a JS key. -/
def memberKey : Nat → AST → Bool → Nat → State → Res String
  | 0, _, _, _, st => .err "model: out of fuel" st
  | fuel + 1, propNode, computed, env, st =>
    if computed then
      match evalExpr fuel propNode env st with
      | .err m st' => .err m st'
      | .ok pv st1 => .ok (propKey st1 pv) st1
    else
      match propNode with
      | .ident name => .ok name st
      | _ => .ok "undefined" st

  termination_by structural fuel _ _ _ _ => fuel

/-- Left-to-right evaluation of an expression list (call arguments,
array elements). -/
def evalExprs : Nat → List AST → Nat → State → Res (List Value)
  | 0, _, _, st => .err "model: out of fuel" st
  | _ + 1, [], _, st => .ok [] st
  | fuel + 1, e :: rest, env, st =>
    match evalExpr fuel e env st with
    | .err m st' => .err m st'
    | .ok v st1 =>
      match evalExprs fuel rest env st1 with
      | .err m st' => .err m st'
      | .ok vs st2 => .ok (v :: vs) st2

  termination_by structural fuel _ _ _ => fuel

/-- Object-literal property evaluation. -/
def evalProps : Nat → List (String × AST) → Nat → State → Res (List (String × Value))
  | 0, _, _, st => .err "model: out of fuel" st
  | _ + 1, [], _, st => .ok [] st
  | fuel + 1, (k, e) :: rest, env, st =>
    match evalExpr fuel e env st with
    | .err m st' => .err m st'
    | .ok v st1 =>
      match evalProps fuel rest env st1 with
      | .err m st' => .err m st'
      | .ok ps st2 => .ok ((k, v) :: ps) st2

  termination_by structural fuel _ _ _ => fuel

/-- Invocation of a callable value (`callee(...args)`). -/
def callValue : Nat → Value → List Value → State → Res Value
  | 0, _, _, st => .err "model: out of fuel" st
  | fuel + 1, v, args, st =>
    match v with
    | .ref r =>
      match getHeap st r with
      | some (.fn (.task node envId)) => executeTask fuel node args envId st
      | some (.fn (.method node instEnvId)) =>
        executeTaskWithEnv fuel node args instEnvId st
      | some (.fn (.ctor groupName)) => instantiateGroup fuel groupName args st
      | _ => .err "Not a function" st
    | _ => .err "Not a function" st

  termination_by structural fuel _ _ _ => fuel

/-- `executeTask`: fresh child environment of the defining environment,
positional parameters (missing → `null`, all mutable), body executed
statement by statement, result always `null`. -/
def executeTask : Nat → TaskDecl → List Value → Nat → State → Res Value
  | 0, _, _, _, st => .err "model: out of fuel" st
  | fuel + 1, node, args, parentEnv, st =>
    let (e, st1) := allocEnv st (some parentEnv)
    let st2 := bindParams node.parameters args e st1
    match evalStmts fuel node.body e st2 with
    | .err m st' => .err m st'
    | .ok _ st3 => .ok .null st3

  termination_by structural fuel _ _ _ _ => fuel

/-- `executeTaskWithEnv`: as `executeTask` but the parent environment is
the instance's field environment. -/
def executeTaskWithEnv : Nat → TaskDecl → List Value → Nat → State → Res Value
  | 0, _, _, _, st => .err "model: out of fuel" st
  | fuel + 1, node, args, instanceEnv, st =>
    let (e, st1) := allocEnv st (some instanceEnv)
    let st2 := bindParams node.parameters args e st1
    match evalStmts fuel node.body e st2 with
    | .err m st' => .err m st'
    | .ok _ st3 => .ok .null st3

  termination_by structural fuel _ _ _ _ => fuel

/-- The per-expression part of `executePrint`: evaluate, auto-invoke a
function value with no arguments when (and only when) the printed
expression is a plain identifier, then stringify. -/
def printParts : Nat → List AST → Nat → State → Res (List String)
  | 0, _, _, st => .err "model: out of fuel" st
  | _ + 1, [], _, st => .ok [] st
  | fuel + 1, e :: rest, env, st =>
    match evalExpr fuel e env st with
    | .err m st' => .err m st'
    | .ok v st1 =>
      match
        (if isFunction st1 v && e.isIdent then callValue fuel v [] st1
         else .ok v st1) with
      | .err m st' => .err m st'
      | .ok v' st2 =>
        match printParts fuel rest env st2 with
        | .err m st' => .err m st'
        | .ok parts st3 => .ok (stringify st2 v' :: parts) st3

  termination_by structural fuel _ _ _ => fuel

/-- `executePrint`: join the parts with no separator, emit one line,
record it in `output`. -/
def executePrint : Nat → List AST → Nat → State → Res Value
  | 0, _, _, st => .err "model: out of fuel" st
  | fuel + 1, expressions, env, st =>
    match printParts fuel expressions env st with
    | .err m st' => .err m st'
    | .ok parts st1 =>
      .ok .null { st1 with output := st1.output ++ [String.join parts] }

  termination_by structural fuel _ _ _ => fuel

/-- `executeIf`: branches tried top to bottom in the *enclosing*
environment (no child scope); the first truthy guard (or the guardless
default) runs and the chain stops. -/
def executeIf : Nat → List IfBranch → Nat → State → Res Value
  | 0, _, _, st => .err "model: out of fuel" st
  | _ + 1, [], _, st => .ok .null st
  | fuel + 1, branch :: rest, env, st =>
    match branch.condition with
    | none =>
      match evalStmts fuel branch.body env st with
      | .err m st' => .err m st'
      | .ok _ st1 => .ok .null st1
    | some c =>
      match evalExpr fuel c env st with
      | .err m st' => .err m st'
      | .ok cv st1 =>
        if isTruthy cv then
          match evalStmts fuel branch.body env st1 with
          | .err m st' => .err m st'
          | .ok _ st2 => .ok .null st2
        else executeIf fuel rest env st1

  termination_by structural fuel _ _ _ => fuel

/-- `executeEachLoop`: the iterable must be an array; each element runs
the body in a fresh child environment binding the loop variable
immutably.  (The source iterates the live JS array; the model iterates
the element list read at loop entry, which agrees unless the body
mutates the array being iterated.) -/
def executeEachLoop : Nat → String → AST → List AST → Nat → State → Res Value
  | 0, _, _, _, _, st => .err "model: out of fuel" st
  | fuel + 1, var, iterable, body, env, st =>
    match evalExpr fuel iterable env st with
    | .err m st' => .err m st'
    | .ok v st1 =>
      match v with
      | .ref r =>
        match getHeap st1 r with
        | some (.arr elems) => eachIter fuel var elems body env st1
        | _ => .err "each loop requires an array" st1
      | _ => .err "each loop requires an array" st1

  termination_by structural fuel _ _ _ _ _ => fuel

/-- Iteration helper of `executeEachLoop`. -/
def eachIter : Nat → String → List Value → List AST → Nat → State → Res Value
  | 0, _, _, _, _, st => .err "model: out of fuel" st
  | _ + 1, _, [], _, _, st => .ok .null st
  | fuel + 1, var, item :: rest, body, env, st =>
    let (e, st1) := allocEnv st (some env)
    let st2 := defineIn st1 e var ⟨item, false⟩
    match evalStmts fuel body e st2 with
    | .err m st' => .err m st'
    | .ok _ st3 => eachIter fuel var rest body env st3

  termination_by structural fuel _ _ _ _ _ => fuel

/-- `executeMarchLoop`: inclusive integer range, step 1, fresh child
environment per iteration, loop variable immutable.  Non-numeric bounds
(which JS would push through relational coercion) are outside the
model. -/
def executeMarchLoop : Nat → String → AST → AST → List AST → Nat → State → Res Value
  | 0, _, _, _, _, _, st => .err "model: out of fuel" st
  | fuel + 1, var, start, stop, body, env, st =>
    match evalExpr fuel start env st with
    | .err m st' => .err m st'
    | .ok sv st1 =>
      match evalExpr fuel stop env st1 with
      | .err m st' => .err m st'
      | .ok ev st2 =>
        match sv, ev with
        | .num s, .num e => marchIter fuel var s e body env st2
        | _, _ => .err "model: non-numeric march bounds are not modelled" st2

  termination_by structural fuel _ _ _ _ _ _ => fuel

/-- Iteration helper of `executeMarchLoop`. -/
def marchIter : Nat → String → Int → Int → List AST → Nat → State → Res Value
  | 0, _, _, _, _, _, st => .err "model: out of fuel" st
  | fuel + 1, var, i, stop, body, env, st =>
    if stop < i then .ok .null st
    else
      let (e, st1) := allocEnv st (some env)
      let st2 := defineIn st1 e var ⟨.num i, false⟩
      match evalStmts fuel body e st2 with
      | .err m st' => .err m st'
      | .ok _ st3 => marchIter fuel var (i + 1) stop body env st3

  termination_by structural fuel _ _ _ _ _ _ => fuel

/-- `executeSelect`: evaluate the subject once, then check every case
independently in source order. -/
def executeSelect : Nat → AST → List SelectCase → Nat → State → Res Value
  | 0, _, _, _, st => .err "model: out of fuel" st
  | fuel + 1, expression, cases, env, st =>
    match evalExpr fuel expression env st with
    | .err m st' => .err m st'
    | .ok subject st1 => selectCases fuel subject cases env st1

  termination_by structural fuel _ _ _ _ => fuel

/-- Case loop of `executeSelect`: a case runs its body iff the subject
owns the case key and every guard evaluates truthy; the loop then
continues with the next case regardless. -/
def selectCases : Nat → Value → List SelectCase → Nat → State → Res Value
  | 0, _, _, _, st => .err "model: out of fuel" st
  | _ + 1, _, [], _, st => .ok .null st
  | fuel + 1, subject, c :: rest, env, st =>
    match hasOwnProp st subject c.key with
    | .error m => .err m st
    | .ok false => selectCases fuel subject rest env st
    | .ok true =>
      match checkConds fuel c.conditions env st with
      | .err m st' => .err m st'
      | .ok false st1 => selectCases fuel subject rest env st1
      | .ok true st1 =>
        match evalStmts fuel c.body env st1 with
        | .err m st' => .err m st'
        | .ok _ st2 => selectCases fuel subject rest env st2

  termination_by structural fuel _ _ _ _ => fuel

/-- Guard loop of a select case: all guards must evaluate truthy, the
first falsy one stopping the loop. -/
def checkConds : Nat → List AST → Nat → State → Res Bool
  | 0, _, _, st => .err "model: out of fuel" st
  | _ + 1, [], _, st => .ok true st
  | fuel + 1, g :: rest, env, st =>
    match evalExpr fuel g env st with
    | .err m st' => .err m st'
    | .ok gv st1 =>
      if isTruthy gv then checkConds fuel rest env st1
      else .ok false st1
  termination_by structural fuel _ _ _ => fuel

end

/-- Fresh interpreter state: one (global) environment frame, empty heap
and tables, the given stdin backlog. -/
def initState (input : List String) : State :=
  ⟨[⟨[], none⟩], [], [], [], [], input⟩

/-- `Interpreter.interpret`: run the program body in the global
environment.  (The post-run plugin `onFileComplete` hooks — e.g. the web
plugin's HTTP server — perform external I/O and are outside the
model.) -/
def run (prog : List AST) (fuel : Nat) (input : List String := []) : Res Unit :=
  evalStmts fuel prog 0 (initState input)

end Interp

/-! ## Parser (`src/parser.ts`)

The lexer source is not part of the shown core, so tokens are taken as
given: the `TokenType` enumeration is reconstructed from the members
`parser.ts` references (plus `INVALID`, the spec's invalid-character
token), and parsing is modelled directly on token lists. -/

namespace Parser

/-- Token kinds referenced by the parser. -/
inductive TokenType where
  | NEWLINE | EOF | INVALID
  | DECLARE | AT
  | IDENTIFIER | NUMBER | STRING
  | ROUTE | RESPOND
  | GROUP | BLUEPRINT | DO | FOR | TASK | FREE | LOCK | WITH
  | NUM | LITERAL
  | LPAREN | RPAREN | LBRACE | RBRACE | LBRACKET | RBRACKET
  | COMMA | COLON | DOT | ARROW | ASSIGN
  | MINUS | PLUS | MULTIPLY | DIVIDE
  | EQUALS | NOT_EQUALS | LESS_THAN | GREATER_THAN | LESS_EQUAL | GREATER_EQUAL
  | END | PRINT | ASSUME | MAYBE | OTHERWISE
  | EACH | IN | MARCH | FROM | TO
  | SELECT | WHEN | SUPPOSE
  | AND | YES | NO | ASK
  deriving DecidableEq, Repr

/-- Printable name of a token type (used in parse-error messages, where
the source interpolates the enum member). -/
def TokenType.tname : TokenType → String
  | .NEWLINE => "NEWLINE" | .EOF => "EOF" | .INVALID => "INVALID"
  | .DECLARE => "DECLARE" | .AT => "AT"
  | .IDENTIFIER => "IDENTIFIER" | .NUMBER => "NUMBER" | .STRING => "STRING"
  | .ROUTE => "ROUTE" | .RESPOND => "RESPOND"
  | .GROUP => "GROUP" | .BLUEPRINT => "BLUEPRINT" | .DO => "DO" | .FOR => "FOR"
  | .TASK => "TASK" | .FREE => "FREE" | .LOCK => "LOCK" | .WITH => "WITH"
  | .NUM => "NUM" | .LITERAL => "LITERAL"
  | .LPAREN => "LPAREN" | .RPAREN => "RPAREN" | .LBRACE => "LBRACE"
  | .RBRACE => "RBRACE" | .LBRACKET => "LBRACKET" | .RBRACKET => "RBRACKET"
  | .COMMA => "COMMA" | .COLON => "COLON" | .DOT => "DOT"
  | .ARROW => "ARROW" | .ASSIGN => "ASSIGN"
  | .MINUS => "MINUS" | .PLUS => "PLUS" | .MULTIPLY => "MULTIPLY"
  | .DIVIDE => "DIVIDE"
  | .EQUALS => "EQUALS" | .NOT_EQUALS => "NOT_EQUALS"
  | .LESS_THAN => "LESS_THAN" | .GREATER_THAN => "GREATER_THAN"
  | .LESS_EQUAL => "LESS_EQUAL" | .GREATER_EQUAL => "GREATER_EQUAL"
  | .END => "END" | .PRINT => "PRINT" | .ASSUME => "ASSUME"
  | .MAYBE => "MAYBE" | .OTHERWISE => "OTHERWISE"
  | .EACH => "EACH" | .IN => "IN" | .MARCH => "MARCH"
  | .FROM => "FROM" | .TO => "TO"
  | .SELECT => "SELECT" | .WHEN => "WHEN" | .SUPPOSE => "SUPPOSE"
  | .AND => "AND" | .YES => "YES" | .NO => "NO" | .ASK => "ASK"

/-- A lexed token. -/
structure Token where
  type : TokenType
  value : String
  line : Nat
  column : Nat
  deriving DecidableEq, Repr

/-- Parser state: position in the (newline-filtered) token list, plus
the plugin manager's record of declared capabilities.

Modelled from the spec: `plugin.ts` (the `PluginManager`) is not among
the shown sources; per the spec's registry contract, `declarePlugin`
records the capability name with its optional argument once per file,
and `isDeclared` tests membership of that record. -/
structure PState where
  pos : Nat
  declared : List (String × Option AST)

/-- Parse results: error message, or value with advanced state. -/
abbrev PRes (α : Type) : Type := Except String (α × PState)

/-- Fallback token returned by the clamped `peek` on an empty token
list, where the source would read `tokens[-1]` (undefined). -/
def dummyToken : Token := ⟨.EOF, "", 0, 0⟩

/-- `peek(offset)`: clamped to the last token at or past the end. -/
def peekAt (tks : List Token) (s : PState) (off : Nat) : Token :=
  let p := s.pos + off
  if p < tks.length then tks.getD p dummyToken
  else tks.getD (tks.length - 1) dummyToken

/-- `peek()`. -/
def peek (tks : List Token) (s : PState) : Token :=
  peekAt tks s 0

/-- `advance()`: return the current token and step past it.  Past the
end the source would return `undefined` and crash at the first property
access; the model reports that as a parse error. -/
def advanceTk (tks : List Token) (s : PState) : PRes Token :=
  match tks.get? s.pos with
  | some t => .ok (t, { s with pos := s.pos + 1 })
  | none => .error "model: token index out of range"

/-- `expect(type)`. -/
def expectTk (tks : List Token) (ty : TokenType) (s : PState) : PRes Token :=
  let t := peek tks s
  if t.type = ty then advanceTk tks s
  else
    .error ("Expected " ++ ty.tname ++ " but got " ++ t.type.tname ++
      " at line " ++ toString t.line ++ ", column " ++ toString t.column)

/-- `match(...types)`. -/
def matchTk (tks : List Token) (s : PState) (tys : List TokenType) : Bool :=
  (peek tks s).type ∈ tys

/-- `isDeclared` on the recorded capability declarations. -/
def isDeclared (s : PState) (name : String) : Bool :=
  alistHas s.declared name

/-- Numeric literal value (`parseFloat`); the model restricts numeric
literals to integers. -/
def strToNumber (str : String) : Int :=
  (str.toInt?).getD 0

/-- Gating error for the `route` keyword. -/
def routeGateMsg : String :=
  "Feature 'route' requires declare web at top of file"

/-- Gating error for the `respond` keyword. -/
def respondGateMsg : String :=
  "Feature 'respond' requires declare web at top of file"

/-- Is the callee expression shape that admits space-separated call
arguments (`expr.type === 'Identifier' || expr.type ===
'MemberExpression'`)? -/
def calleeShape : AST → Bool
  | .ident _ => true
  | .member _ _ _ => true
  | _ => false

mutual

/-- The declare-statements-first loop at the top of `parse()`. -/
def parseDeclLoop (tks : List Token) : Nat → PState → PRes (List AST)
  | 0, _ => .error "model: out of fuel"
  | fuel + 1, s =>
    if matchTk tks s [.DECLARE] then
      match parseDeclareStatement tks fuel s with
      | .error m => .error m
      | .ok (d, s1) =>
        match parseDeclLoop tks fuel s1 with
        | .error m => .error m
        | .ok (ds, s2) => .ok (d :: ds, s2)
    else .ok ([], s)

  termination_by structural fuel _ => fuel

/-- The main statement loop of `parse()` (until EOF). -/
def parseTopLoop (tks : List Token) : Nat → PState → PRes (List AST)
  | 0, _ => .error "model: out of fuel"
  | fuel + 1, s =>
    if matchTk tks s [.EOF] then .ok ([], s)
    else
      match parseTopLevelStatement tks fuel s with
      | .error m => .error m
      | .ok (st, s1) =>
        match parseTopLoop tks fuel s1 with
        | .error m => .error m
        | .ok (sts, s2) => .ok (st :: sts, s2)

  termination_by structural fuel _ => fuel

/-- `parse()`: declare statements first, then top-level statements until
EOF; one `Program` node. -/
def parseProgram (tks : List Token) : Nat → PState → PRes AST
  | 0, _ => .error "model: out of fuel"
  | fuel + 1, s =>
    match parseDeclLoop tks fuel s with
    | .error m => .error m
    | .ok (ds, s1) =>
      match parseTopLoop tks fuel s1 with
      | .error m => .error m
      | .ok (sts, s2) => .ok (.program (ds ++ sts), s2)

/-- `parseTopLevelStatement`, including the `route` capability gate. -/
def parseTopLevelStatement (tks : List Token) : Nat → PState → PRes AST
  | 0, _ => .error "model: out of fuel"
  | fuel + 1, s =>
    if matchTk tks s [.ROUTE] then
      if !isDeclared s "web" then .error routeGateMsg
      else parseRouteStatement tks fuel s
    else if matchTk tks s [.GROUP] then parseGroupDeclaration tks fuel s
    else if matchTk tks s [.BLUEPRINT] then parseBlueprintDeclaration tks fuel s
    else if matchTk tks s [.DO] then parseDoImplementation tks fuel s
    else if matchTk tks s [.TASK] then
      match parseTaskDeclaration tks fuel s with
      | .error m => .error m
      | .ok (t, s1) => .ok (.taskStmt t, s1)
    else if matchTk tks s [.FREE, .LOCK] then
      match parseVariableDeclaration tks fuel s with
      | .error m => .error m
      | .ok (d, s1) => .ok (.varStmt d, s1)
    else parseStatement tks fuel s

/-- `parseDeclareStatement`: `declare <name> [@ number|string|ident]`,
recording the declaration with the plugin manager. -/
def parseDeclareStatement (tks : List Token) : Nat → PState → PRes AST
  | 0, _ => .error "model: out of fuel"
  | _fuel + 1, s =>
    match expectTk tks .DECLARE s with
    | .error m => .error m
    | .ok (_, s1) =>
      match expectTk tks .IDENTIFIER s1 with
      | .error m => .error m
      | .ok (pluginTok, s2) =>
        let plugin := pluginTok.value
        match
          (if matchTk tks s2 [.AT] then
            match advanceTk tks s2 with
            | .error m => .error m
            | .ok (_, s3) =>
              if matchTk tks s3 [.NUMBER] then
                match advanceTk tks s3 with
                | .error m => .error m
                | .ok (t, s4) => .ok (some (AST.lit (.num (strToNumber t.value))), s4)
              else if matchTk tks s3 [.STRING] then
                match advanceTk tks s3 with
                | .error m => .error m
                | .ok (t, s4) => .ok (some (AST.lit (.str t.value)), s4)
              else if matchTk tks s3 [.IDENTIFIER] then
                match advanceTk tks s3 with
                | .error m => .error m
                | .ok (t, s4) => .ok (some (AST.ident t.value), s4)
              else .ok (none, s3)
          else (.ok (none, s2) : PRes (Option AST))) with
        | .error m => .error m
        | .ok (argument, s5) =>
          let s6 := { s5 with declared := alistSet s5.declared plugin argument }
          .ok (.declareStmt plugin argument, s6)

/-- `parseRouteStatement`: path string, then either the forwarding form
`-> Identifier` or an arrow-introduced body closed by `end`. -/
def parseRouteStatement (tks : List Token) : Nat → PState → PRes AST
  | 0, _ => .error "model: out of fuel"
  | fuel + 1, s =>
    match expectTk tks .ROUTE s with
    | .error m => .error m
    | .ok (_, s1) =>
      match expectTk tks .STRING s1 with
      | .error m => .error m
      | .ok (pathTok, s2) =>
        if matchTk tks s2 [.MINUS] ∧ (peekAt tks s2 1).type = .GREATER_THAN then
          match advanceTk tks s2 with
          | .error m => .error m
          | .ok (_, s3) =>
            match advanceTk tks s3 with
            | .error m => .error m
            | .ok (_, s4) =>
              match expectTk tks .IDENTIFIER s4 with
              | .error m => .error m
              | .ok (fwd, s5) => .ok (.routeStmt pathTok.value [] (some fwd.value), s5)
        else
          match expectTk tks .ARROW s2 with
          | .error m => .error m
          | .ok (_, s3) =>
            match parseStmtsUntil tks [.END] fuel s3 with
            | .error m => .error m
            | .ok (body, s4) =>
              match expectTk tks .END s4 with
              | .error m => .error m
              | .ok (_, s5) => .ok (.routeStmt pathTok.value body none, s5)

/-- Shared shape of the source's `while (!this.match(...stops))
body.push(this.parseStatement())` block loops. -/
def parseStmtsUntil (tks : List Token) (stops : List TokenType) :
    Nat → PState → PRes (List AST)
  | 0, _ => .error "model: out of fuel"
  | fuel + 1, s =>
    if matchTk tks s stops then .ok ([], s)
    else
      match parseStatement tks fuel s with
      | .error m => .error m
      | .ok (st, s1) =>
        match parseStmtsUntil tks stops fuel s1 with
        | .error m => .error m
        | .ok (sts, s2) => .ok (st :: sts, s2)

  termination_by structural fuel _ => fuel

/-- `parseGroupDeclaration`: braced body of field declarations and task
(method) declarations. -/
def parseGroupDeclaration (tks : List Token) : Nat → PState → PRes AST
  | 0, _ => .error "model: out of fuel"
  | fuel + 1, s =>
    match expectTk tks .GROUP s with
    | .error m => .error m
    | .ok (_, s1) =>
      match expectTk tks .IDENTIFIER s1 with
      | .error m => .error m
      | .ok (nameTok, s2) =>
        match expectTk tks .LBRACE s2 with
        | .error m => .error m
        | .ok (_, s3) =>
          match parseGroupBody tks fuel s3 with
          | .error m => .error m
          | .ok ((fields, methods), s4) =>
            match expectTk tks .RBRACE s4 with
            | .error m => .error m
            | .ok (_, s5) => .ok (.groupDecl nameTok.value fields methods, s5)

/-- Member loop of `parseGroupDeclaration`. -/
def parseGroupBody (tks : List Token) :
    Nat → PState → PRes (List VarDecl × List TaskDecl)
  | 0, _ => .error "model: out of fuel"
  | fuel + 1, s =>
    if matchTk tks s [.RBRACE] then .ok (([], []), s)
    else if matchTk tks s [.TASK] then
      match parseTaskDeclaration tks fuel s with
      | .error m => .error m
      | .ok (t, s1) =>
        match parseGroupBody tks fuel s1 with
        | .error m => .error m
        | .ok ((fs, ms), s2) => .ok ((fs, t :: ms), s2)
    else if matchTk tks s [.FREE, .LOCK] then
      match parseVariableDeclaration tks fuel s with
      | .error m => .error m
      | .ok (d, s1) =>
        match parseGroupBody tks fuel s1 with
        | .error m => .error m
        | .ok ((fs, ms), s2) => .ok ((d :: fs, ms), s2)
    else .error ("Unexpected token in group: " ++ (peek tks s).value)

  termination_by structural fuel _ => fuel

/-- `parseBlueprintDeclaration`: braced list of method signatures. -/
def parseBlueprintDeclaration (tks : List Token) : Nat → PState → PRes AST
  | 0, _ => .error "model: out of fuel"
  | fuel + 1, s =>
    match expectTk tks .BLUEPRINT s with
    | .error m => .error m
    | .ok (_, s1) =>
      match expectTk tks .IDENTIFIER s1 with
      | .error m => .error m
      | .ok (nameTok, s2) =>
        match expectTk tks .LBRACE s2 with
        | .error m => .error m
        | .ok (_, s3) =>
          match parseBlueprintBody tks fuel s3 with
          | .error m => .error m
          | .ok (methods, s4) =>
            match expectTk tks .RBRACE s4 with
            | .error m => .error m
            | .ok (_, s5) => .ok (.blueprintDecl nameTok.value methods, s5)

/-- Signature loop of `parseBlueprintDeclaration`. -/
def parseBlueprintBody (tks : List Token) : Nat → PState → PRes (List TaskSig)
  | 0, _ => .error "model: out of fuel"
  | fuel + 1, s =>
    if matchTk tks s [.RBRACE] then .ok ([], s)
    else
      match expectTk tks .TASK s with
      | .error m => .error m
      | .ok (_, s1) =>
        match expectTk tks .IDENTIFIER s1 with
        | .error m => .error m
        | .ok (nameTok, s2) =>
          match
            (if matchTk tks s2 [.WITH] then
              match advanceTk tks s2 with
              | .error m => .error m
              | .ok (_, s3) => parseParameters tks fuel s3
            else (.ok ([], s2) : PRes (List Param))) with
          | .error m => .error m
          | .ok (params, s4) =>
            match parseBlueprintBody tks fuel s4 with
            | .error m => .error m
            | .ok (ms, s5) => .ok (⟨nameTok.value, params⟩ :: ms, s5)

  termination_by structural fuel _ => fuel

/-- `parseDoImplementation`: `do <Blueprint> for <Group> =>` followed by
task declarations until `end`. -/
def parseDoImplementation (tks : List Token) : Nat → PState → PRes AST
  | 0, _ => .error "model: out of fuel"
  | fuel + 1, s =>
    match expectTk tks .DO s with
    | .error m => .error m
    | .ok (_, s1) =>
      match expectTk tks .IDENTIFIER s1 with
      | .error m => .error m
      | .ok (bpTok, s2) =>
        match expectTk tks .FOR s2 with
        | .error m => .error m
        | .ok (_, s3) =>
          match expectTk tks .IDENTIFIER s3 with
          | .error m => .error m
          | .ok (gTok, s4) =>
            match expectTk tks .ARROW s4 with
            | .error m => .error m
            | .ok (_, s5) =>
              match parseTasksUntilEnd tks fuel s5 with
              | .error m => .error m
              | .ok (methods, s6) =>
                match expectTk tks .END s6 with
                | .error m => .error m
                | .ok (_, s7) =>
                  .ok (.doImpl bpTok.value gTok.value methods, s7)

/-- Method loop of `parseDoImplementation`. -/
def parseTasksUntilEnd (tks : List Token) : Nat → PState → PRes (List TaskDecl)
  | 0, _ => .error "model: out of fuel"
  | fuel + 1, s =>
    if matchTk tks s [.END] then .ok ([], s)
    else
      match parseTaskDeclaration tks fuel s with
      | .error m => .error m
      | .ok (t, s1) =>
        match parseTasksUntilEnd tks fuel s1 with
        | .error m => .error m
        | .ok (ts, s2) => .ok (t :: ts, s2)

  termination_by structural fuel _ => fuel

/-- `parseTaskDeclaration`: name, optional `with` parameter list, arrow,
body until `end`. -/
def parseTaskDeclaration (tks : List Token) : Nat → PState → PRes TaskDecl
  | 0, _ => .error "model: out of fuel"
  | fuel + 1, s =>
    match expectTk tks .TASK s with
    | .error m => .error m
    | .ok (_, s1) =>
      match expectTk tks .IDENTIFIER s1 with
      | .error m => .error m
      | .ok (nameTok, s2) =>
        match
          (if matchTk tks s2 [.WITH] then
            match advanceTk tks s2 with
            | .error m => .error m
            | .ok (_, s3) => parseParameters tks fuel s3
          else (.ok ([], s2) : PRes (List Param))) with
        | .error m => .error m
        | .ok (params, s4) =>
          match expectTk tks .ARROW s4 with
          | .error m => .error m
          | .ok (_, s5) =>
            match parseStmtsUntil tks [.END] fuel s5 with
            | .error m => .error m
            | .ok (body, s6) =>
              match expectTk tks .END s6 with
              | .error m => .error m
              | .ok (_, s7) => .ok (⟨nameTok.value, params, body⟩, s7)

/-- `parseParameters`: `type(name)` items in a do/while loop with
optional commas; the type token may be `num`, `literal` or any
identifier. -/
def parseParameters (tks : List Token) : Nat → PState → PRes (List Param)
  | 0, _ => .error "model: out of fuel"
  | fuel + 1, s =>
    match
      (if matchTk tks s [.COMMA] then advanceTk tks s
       else (.ok (dummyToken, s) : PRes Token)) with
    | .error m => .error m
    | .ok (_, s1) =>
      if matchTk tks s1 [.NUM, .LITERAL, .IDENTIFIER] then
        match advanceTk tks s1 with
        | .error m => .error m
        | .ok (tyTok, s2) =>
          match expectTk tks .LPAREN s2 with
          | .error m => .error m
          | .ok (_, s3) =>
            match expectTk tks .IDENTIFIER s3 with
            | .error m => .error m
            | .ok (nameTok, s4) =>
              match expectTk tks .RPAREN s4 with
              | .error m => .error m
              | .ok (_, s5) =>
                if matchTk tks s5 [.COMMA] then
                  match parseParameters tks fuel s5 with
                  | .error m => .error m
                  | .ok (ps, s6) =>
                    .ok (⟨nameTok.value, tyTok.value⟩ :: ps, s6)
                else .ok ([⟨nameTok.value, tyTok.value⟩], s5)
      else .error ("Expected type name at line " ++ toString (peek tks s1).line)

  termination_by structural fuel _ => fuel

/-- `parseVariableDeclaration`: `free`/`lock`, optional type annotation
(detected by identifier lookahead), name, then an initializer after
`:=` — or after a stray token whose text is `=`. -/
def parseVariableDeclaration (tks : List Token) : Nat → PState → PRes VarDecl
  | 0, _ => .error "model: out of fuel"
  | fuel + 1, s =>
    let isMutable := matchTk tks s [.FREE]
    match advanceTk tks s with
    | .error m => .error m
    | .ok (_, s1) =>
      match
        ((if matchTk tks s1 [.NUM, .LITERAL, .IDENTIFIER] ∧
            (peekAt tks s1 1).type = .IDENTIFIER then
          match advanceTk tks s1 with
          | .error m => .error m
          | .ok (tyTok, s2) =>
            match advanceTk tks s2 with
            | .error m => .error m
            | .ok (nameTok, s3) => .ok ((some tyTok.value, nameTok.value), s3)
        else
          match expectTk tks .IDENTIFIER s1 with
          | .error m => .error m
          | .ok (nameTok, s2) =>
            .ok ((none, nameTok.value), s2)) : PRes (Option String × String)) with
      | .error m => .error m
      | .ok ((varType, name), s4) =>
        if matchTk tks s4 [.ASSIGN] then
          match advanceTk tks s4 with
          | .error m => .error m
          | .ok (_, s5) =>
            match parseExpression tks fuel s5 with
            | .error m => .error m
            | .ok (init, s6) => .ok (⟨name, isMutable, varType, some init⟩, s6)
        else if (peek tks s4).type ≠ .RBRACE ∧ (peek tks s4).type ≠ .EOF then
          if (peek tks s4).value = "=" then
            match advanceTk tks s4 with
            | .error m => .error m
            | .ok (_, s5) =>
              match parseExpression tks fuel s5 with
              | .error m => .error m
              | .ok (init, s6) => .ok (⟨name, isMutable, varType, some init⟩, s6)
          else .ok (⟨name, isMutable, varType, none⟩, s4)
        else .ok (⟨name, isMutable, varType, none⟩, s4)

/-- `parseStatement`, including the `respond` capability gate. -/
def parseStatement (tks : List Token) : Nat → PState → PRes AST
  | 0, _ => .error "model: out of fuel"
  | fuel + 1, s =>
    if matchTk tks s [.RESPOND] then
      if !isDeclared s "web" then .error respondGateMsg
      else parseRespondStatement tks fuel s
    else if matchTk tks s [.PRINT] then parsePrintStatement tks fuel s
    else if matchTk tks s [.ASSUME] then parseIfStatement tks fuel s
    else if matchTk tks s [.EACH] then parseEachLoop tks fuel s
    else if matchTk tks s [.MARCH] then parseMarchLoop tks fuel s
    else if matchTk tks s [.SELECT] then parseSelectStatement tks fuel s
    else if matchTk tks s [.FREE, .LOCK] then
      match parseVariableDeclaration tks fuel s with
      | .error m => .error m
      | .ok (d, s1) => .ok (.varStmt d, s1)
    else
      match parseExpression tks fuel s with
      | .error m => .error m
      | .ok (expr, s1) =>
        if matchTk tks s1 [.ASSIGN] then
          match advanceTk tks s1 with
          | .error m => .error m
          | .ok (_, s2) =>
            match parseExpression tks fuel s2 with
            | .error m => .error m
            | .ok (value, s3) => .ok (.assignment expr value, s3)
        else .ok (.exprStmt expr, s1)

  termination_by structural fuel _ => fuel

/-- `parseRespondStatement`. -/
def parseRespondStatement (tks : List Token) : Nat → PState → PRes AST
  | 0, _ => .error "model: out of fuel"
  | fuel + 1, s =>
    match expectTk tks .RESPOND s with
    | .error m => .error m
    | .ok (_, s1) =>
      match parseExpression tks fuel s1 with
      | .error m => .error m
      | .ok (content, s2) => .ok (.respondStmt content, s2)

/-- `parsePrintStatement`: one or more expressions joined by `and`. -/
def parsePrintStatement (tks : List Token) : Nat → PState → PRes AST
  | 0, _ => .error "model: out of fuel"
  | fuel + 1, s =>
    match expectTk tks .PRINT s with
    | .error m => .error m
    | .ok (_, s1) =>
      match parseExpression tks fuel s1 with
      | .error m => .error m
      | .ok (first, s2) =>
        match parsePrintRest tks fuel s2 with
        | .error m => .error m
        | .ok (rest, s3) => .ok (.printStmt (first :: rest), s3)

/-- `and`-separated continuation loop of `parsePrintStatement`. -/
def parsePrintRest (tks : List Token) : Nat → PState → PRes (List AST)
  | 0, _ => .error "model: out of fuel"
  | fuel + 1, s =>
    if matchTk tks s [.AND] then
      match advanceTk tks s with
      | .error m => .error m
      | .ok (_, s1) =>
        match parseExpression tks fuel s1 with
        | .error m => .error m
        | .ok (e, s2) =>
          match parsePrintRest tks fuel s2 with
          | .error m => .error m
          | .ok (es, s3) => .ok (e :: es, s3)
    else .ok ([], s)

  termination_by structural fuel _ => fuel

/-- `parseIfStatement`: `assume` branch, `maybe` branches, optional
`otherwise` branch, closed by `end`. -/
def parseIfStatement (tks : List Token) : Nat → PState → PRes AST
  | 0, _ => .error "model: out of fuel"
  | fuel + 1, s =>
    match expectTk tks .ASSUME s with
    | .error m => .error m
    | .ok (_, s1) =>
      match parseExpression tks fuel s1 with
      | .error m => .error m
      | .ok (cond, s2) =>
        match expectTk tks .ARROW s2 with
        | .error m => .error m
        | .ok (_, s3) =>
          match parseStmtsUntil tks [.MAYBE, .OTHERWISE, .END] fuel s3 with
          | .error m => .error m
          | .ok (body, s4) =>
            match parseMaybeLoop tks fuel s4 with
            | .error m => .error m
            | .ok (maybes, s5) =>
              match
                (if matchTk tks s5 [.OTHERWISE] then
                  match advanceTk tks s5 with
                  | .error m => .error m
                  | .ok (_, s6) =>
                    match expectTk tks .ARROW s6 with
                    | .error m => .error m
                    | .ok (_, s7) =>
                      match parseStmtsUntil tks [.END] fuel s7 with
                      | .error m => .error m
                      | .ok (ob, s8) => .ok ([IfBranch.mk none ob], s8)
                else (.ok ([], s5) : PRes (List IfBranch))) with
              | .error m => .error m
              | .ok (otherw, s9) =>
                match expectTk tks .END s9 with
                | .error m => .error m
                | .ok (_, s10) =>
                  .ok (.ifStmt (⟨some cond, body⟩ :: maybes ++ otherw), s10)

  termination_by structural fuel _ => fuel

/-- `maybe` (elif) loop of `parseIfStatement`. -/
def parseMaybeLoop (tks : List Token) : Nat → PState → PRes (List IfBranch)
  | 0, _ => .error "model: out of fuel"
  | fuel + 1, s =>
    if matchTk tks s [.MAYBE] then
      match advanceTk tks s with
      | .error m => .error m
      | .ok (_, s1) =>
        match parseExpression tks fuel s1 with
        | .error m => .error m
        | .ok (cond, s2) =>
          match expectTk tks .ARROW s2 with
          | .error m => .error m
          | .ok (_, s3) =>
            match parseStmtsUntil tks [.MAYBE, .OTHERWISE, .END] fuel s3 with
            | .error m => .error m
            | .ok (body, s4) =>
              match parseMaybeLoop tks fuel s4 with
              | .error m => .error m
              | .ok (rest, s5) => .ok (⟨some cond, body⟩ :: rest, s5)
    else .ok ([], s)

  termination_by structural fuel _ => fuel

/-- `parseEachLoop`. -/
def parseEachLoop (tks : List Token) : Nat → PState → PRes AST
  | 0, _ => .error "model: out of fuel"
  | fuel + 1, s =>
    match expectTk tks .EACH s with
    | .error m => .error m
    | .ok (_, s1) =>
      match expectTk tks .IDENTIFIER s1 with
      | .error m => .error m
      | .ok (varTok, s2) =>
        match expectTk tks .IN s2 with
        | .error m => .error m
        | .ok (_, s3) =>
          match parseExpression tks fuel s3 with
          | .error m => .error m
          | .ok (iterable, s4) =>
            match expectTk tks .ARROW s4 with
            | .error m => .error m
            | .ok (_, s5) =>
              match parseStmtsUntil tks [.END] fuel s5 with
              | .error m => .error m
              | .ok (body, s6) =>
                match expectTk tks .END s6 with
                | .error m => .error m
                | .ok (_, s7) => .ok (.eachLoop varTok.value iterable body, s7)

  termination_by structural fuel _ => fuel

/-- `parseMarchLoop`. -/
def parseMarchLoop (tks : List Token) : Nat → PState → PRes AST
  | 0, _ => .error "model: out of fuel"
  | fuel + 1, s =>
    match expectTk tks .MARCH s with
    | .error m => .error m
    | .ok (_, s1) =>
      match expectTk tks .IDENTIFIER s1 with
      | .error m => .error m
      | .ok (varTok, s2) =>
        match expectTk tks .FROM s2 with
        | .error m => .error m
        | .ok (_, s3) =>
          match parseExpression tks fuel s3 with
          | .error m => .error m
          | .ok (start, s4) =>
            match expectTk tks .TO s4 with
            | .error m => .error m
            | .ok (_, s5) =>
              match parseExpression tks fuel s5 with
              | .error m => .error m
              | .ok (stop, s6) =>
                match expectTk tks .ARROW s6 with
                | .error m => .error m
                | .ok (_, s7) =>
                  match parseStmtsUntil tks [.END] fuel s7 with
                  | .error m => .error m
                  | .ok (body, s8) =>
                    match expectTk tks .END s8 with
                    | .error m => .error m
                    | .ok (_, s9) =>
                      .ok (.marchLoop varTok.value start stop body, s9)

  termination_by structural fuel _ => fuel

/-- `parseSelectStatement`: subject, arrow, `when` cases, `end`. -/
def parseSelectStatement (tks : List Token) : Nat → PState → PRes AST
  | 0, _ => .error "model: out of fuel"
  | fuel + 1, s =>
    match expectTk tks .SELECT s with
    | .error m => .error m
    | .ok (_, s1) =>
      match parseExpression tks fuel s1 with
      | .error m => .error m
      | .ok (subject, s2) =>
        match expectTk tks .ARROW s2 with
        | .error m => .error m
        | .ok (_, s3) =>
          match parseWhenLoop tks fuel s3 with
          | .error m => .error m
          | .ok (cases, s4) =>
            match expectTk tks .END s4 with
            | .error m => .error m
            | .ok (_, s5) => .ok (.selectStmt subject cases, s5)

  termination_by structural fuel _ => fuel

/-- `when` case loop of `parseSelectStatement`: string key, arrow,
optional single `suppose` guard, body until the next case or `end`. -/
def parseWhenLoop (tks : List Token) : Nat → PState → PRes (List SelectCase)
  | 0, _ => .error "model: out of fuel"
  | fuel + 1, s =>
    if matchTk tks s [.WHEN] then
      match advanceTk tks s with
      | .error m => .error m
      | .ok (_, s1) =>
        match expectTk tks .STRING s1 with
        | .error m => .error m
        | .ok (keyTok, s2) =>
          match expectTk tks .ARROW s2 with
          | .error m => .error m
          | .ok (_, s3) =>
            match
              (if matchTk tks s3 [.SUPPOSE] then
                match advanceTk tks s3 with
                | .error m => .error m
                | .ok (_, s4) =>
                  match parseExpression tks fuel s4 with
                  | .error m => .error m
                  | .ok (cond, s5) =>
                    match expectTk tks .ARROW s5 with
                    | .error m => .error m
                    | .ok (_, s6) => .ok ([cond], s6)
              else (.ok ([], s3) : PRes (List AST))) with
            | .error m => .error m
            | .ok (conds, s7) =>
              match parseStmtsUntil tks [.WHEN, .END] fuel s7 with
              | .error m => .error m
              | .ok (body, s8) =>
                match parseWhenLoop tks fuel s8 with
                | .error m => .error m
                | .ok (rest, s9) =>
                  .ok (⟨keyTok.value, conds, body⟩ :: rest, s9)
    else .ok ([], s)

  termination_by structural fuel _ => fuel

/-- `parseExpression` → `parseLogicalExpression`. -/
def parseExpression (tks : List Token) : Nat → PState → PRes AST
  | 0, _ => .error "model: out of fuel"
  | fuel + 1, s => parseLogicalExpression tks fuel s

  termination_by structural fuel _ => fuel

/-- `parseLogicalExpression`: the source's `while` loop breaks on its
first iteration, so this is `parseComparisonExpression`. -/
def parseLogicalExpression (tks : List Token) : Nat → PState → PRes AST
  | 0, _ => .error "model: out of fuel"
  | fuel + 1, s => parseComparisonExpression tks fuel s

  termination_by structural fuel _ => fuel

/-- `parseComparisonExpression`. -/
def parseComparisonExpression (tks : List Token) : Nat → PState → PRes AST
  | 0, _ => .error "model: out of fuel"
  | fuel + 1, s =>
    match parseAdditiveExpression tks fuel s with
    | .error m => .error m
    | .ok (left, s1) => parseComparisonLoop tks fuel left s1

  termination_by structural fuel _ => fuel

/-- Operator loop of `parseComparisonExpression`. -/
def parseComparisonLoop (tks : List Token) : Nat → AST → PState → PRes AST
  | 0, _, _ => .error "model: out of fuel"
  | fuel + 1, left, s =>
    if matchTk tks s [.EQUALS, .NOT_EQUALS, .LESS_THAN, .GREATER_THAN,
        .LESS_EQUAL, .GREATER_EQUAL] then
      match advanceTk tks s with
      | .error m => .error m
      | .ok (opTok, s1) =>
        match parseAdditiveExpression tks fuel s1 with
        | .error m => .error m
        | .ok (right, s2) =>
          parseComparisonLoop tks fuel (.binary opTok.value left right) s2
    else .ok (left, s)

  termination_by structural fuel _ _ => fuel

/-- `parseAdditiveExpression`. -/
def parseAdditiveExpression (tks : List Token) : Nat → PState → PRes AST
  | 0, _ => .error "model: out of fuel"
  | fuel + 1, s =>
    match parseMultiplicativeExpression tks fuel s with
    | .error m => .error m
    | .ok (left, s1) => parseAdditiveLoop tks fuel left s1

  termination_by structural fuel _ => fuel

/-- Operator loop of `parseAdditiveExpression`. -/
def parseAdditiveLoop (tks : List Token) : Nat → AST → PState → PRes AST
  | 0, _, _ => .error "model: out of fuel"
  | fuel + 1, left, s =>
    if matchTk tks s [.PLUS, .MINUS] then
      match advanceTk tks s with
      | .error m => .error m
      | .ok (opTok, s1) =>
        match parseMultiplicativeExpression tks fuel s1 with
        | .error m => .error m
        | .ok (right, s2) =>
          parseAdditiveLoop tks fuel (.binary opTok.value left right) s2
    else .ok (left, s)

  termination_by structural fuel _ _ => fuel

/-- `parseMultiplicativeExpression`. -/
def parseMultiplicativeExpression (tks : List Token) : Nat → PState → PRes AST
  | 0, _ => .error "model: out of fuel"
  | fuel + 1, s =>
    match parseUnaryExpression tks fuel s with
    | .error m => .error m
    | .ok (left, s1) => parseMultiplicativeLoop tks fuel left s1

  termination_by structural fuel _ => fuel

/-- Operator loop of `parseMultiplicativeExpression`. -/
def parseMultiplicativeLoop (tks : List Token) : Nat → AST → PState → PRes AST
  | 0, _, _ => .error "model: out of fuel"
  | fuel + 1, left, s =>
    if matchTk tks s [.MULTIPLY, .DIVIDE] then
      match advanceTk tks s with
      | .error m => .error m
      | .ok (opTok, s1) =>
        match parseUnaryExpression tks fuel s1 with
        | .error m => .error m
        | .ok (right, s2) =>
          parseMultiplicativeLoop tks fuel (.binary opTok.value left right) s2
    else .ok (left, s)

  termination_by structural fuel _ _ => fuel

/-- `parseUnaryExpression`: prefix minus, else postfix. -/
def parseUnaryExpression (tks : List Token) : Nat → PState → PRes AST
  | 0, _ => .error "model: out of fuel"
  | fuel + 1, s =>
    if matchTk tks s [.MINUS] then
      match advanceTk tks s with
      | .error m => .error m
      | .ok (opTok, s1) =>
        match parseUnaryExpression tks fuel s1 with
        | .error m => .error m
        | .ok (operand, s2) => .ok (.unary opTok.value operand, s2)
    else parsePostfixExpression tks fuel s

  termination_by structural fuel _ => fuel

/-- `parsePostfixExpression`: primary followed by the postfix loop. -/
def parsePostfixExpression (tks : List Token) : Nat → PState → PRes AST
  | 0, _ => .error "model: out of fuel"
  | fuel + 1, s =>
    match parsePrimaryExpression tks fuel s with
    | .error m => .error m
    | .ok (expr, s1) => parsePostfixLoop tks fuel expr s1

  termination_by structural fuel _ => fuel

/-- The postfix `while (true)` loop: dotted and bracketed member access,
parenthesised calls, and the greedy space-separated-argument call form
(admitted only after an identifier or member expression). -/
def parsePostfixLoop (tks : List Token) : Nat → AST → PState → PRes AST
  | 0, _, _ => .error "model: out of fuel"
  | fuel + 1, expr, s =>
    if matchTk tks s [.DOT] then
      match advanceTk tks s with
      | .error m => .error m
      | .ok (_, s1) =>
        match expectTk tks .IDENTIFIER s1 with
        | .error m => .error m
        | .ok (propTok, s2) =>
          parsePostfixLoop tks fuel
            (.member expr (.ident propTok.value) false) s2
    else if matchTk tks s [.LBRACKET] then
      match advanceTk tks s with
      | .error m => .error m
      | .ok (_, s1) =>
        match parseExpression tks fuel s1 with
        | .error m => .error m
        | .ok (prop, s2) =>
          match expectTk tks .RBRACKET s2 with
          | .error m => .error m
          | .ok (_, s3) => parsePostfixLoop tks fuel (.member expr prop true) s3
    else if matchTk tks s [.LPAREN] ∨
        (matchTk tks s [.STRING, .NUMBER, .IDENTIFIER] ∧ calleeShape expr) then
      if matchTk tks s [.LPAREN] then
        match advanceTk tks s with
        | .error m => .error m
        | .ok (_, s1) =>
          match parseParenArgs tks fuel s1 with
          | .error m => .error m
          | .ok (args, s2) =>
            match expectTk tks .RPAREN s2 with
            | .error m => .error m
            | .ok (_, s3) => parsePostfixLoop tks fuel (.call expr args) s3
      else
        match parseSpaceArgs tks fuel s with
        | .error m => .error m
        | .ok (args, s1) => parsePostfixLoop tks fuel (.call expr args) s1
    else .ok (expr, s)

  termination_by structural fuel _ _ => fuel

/-- Parenthesised argument loop (`while` not `)`), commas optional. -/
def parseParenArgs (tks : List Token) : Nat → PState → PRes (List AST)
  | 0, _ => .error "model: out of fuel"
  | fuel + 1, s =>
    if matchTk tks s [.RPAREN] then .ok ([], s)
    else
      match parseExpression tks fuel s with
      | .error m => .error m
      | .ok (a, s1) =>
        match
          (if matchTk tks s1 [.COMMA] then advanceTk tks s1
           else (.ok (dummyToken, s1) : PRes Token)) with
        | .error m => .error m
        | .ok (_, s2) =>
          match parseParenArgs tks fuel s2 with
          | .error m => .error m
          | .ok (args, s3) => .ok (a :: args, s3)

  termination_by structural fuel _ => fuel

/-- Greedy space-separated argument loop: consume argument-shaped
primary expressions while the lookahead stays argument-shaped, stopping
at statement-terminating tokens. -/
def parseSpaceArgs (tks : List Token) : Nat → PState → PRes (List AST)
  | 0, _ => .error "model: out of fuel"
  | fuel + 1, s =>
    if matchTk tks s [.STRING, .NUMBER, .IDENTIFIER] ∧
        ¬matchTk tks s [.ARROW, .ASSIGN, .EOF, .END, .NEWLINE, .MAYBE, .OTHERWISE] then
      match parsePrimaryExpression tks fuel s with
      | .error m => .error m
      | .ok (a, s1) =>
        match
          (if matchTk tks s1 [.COMMA] then advanceTk tks s1
           else (.ok (dummyToken, s1) : PRes Token)) with
        | .error m => .error m
        | .ok (_, s2) =>
          if matchTk tks s2 [.STRING, .NUMBER, .IDENTIFIER, .COMMA] then
            match parseSpaceArgs tks fuel s2 with
            | .error m => .error m
            | .ok (args, s3) => .ok (a :: args, s3)
          else .ok ([a], s2)
    else .ok ([], s)

  termination_by structural fuel _ => fuel

/-- `parsePrimaryExpression`: literals, `ask`, array and object
literals, parenthesised expressions, identifiers. -/
def parsePrimaryExpression (tks : List Token) : Nat → PState → PRes AST
  | 0, _ => .error "model: out of fuel"
  | fuel + 1, s =>
    if matchTk tks s [.STRING] then
      match advanceTk tks s with
      | .error m => .error m
      | .ok (t, s1) => .ok (.lit (.str t.value), s1)
    else if matchTk tks s [.NUMBER] then
      match advanceTk tks s with
      | .error m => .error m
      | .ok (t, s1) => .ok (.lit (.num (strToNumber t.value)), s1)
    else if matchTk tks s [.YES] then
      match advanceTk tks s with
      | .error m => .error m
      | .ok (_, s1) => .ok (.lit (.bool true), s1)
    else if matchTk tks s [.NO] then
      match advanceTk tks s with
      | .error m => .error m
      | .ok (_, s1) => .ok (.lit (.bool false), s1)
    else if matchTk tks s [.ASK] then
      match advanceTk tks s with
      | .error m => .error m
      | .ok (_, s1) =>
        match parseExpression tks fuel s1 with
        | .error m => .error m
        | .ok (prompt, s2) => .ok (.askExpr prompt, s2)
    else if matchTk tks s [.LBRACKET] then
      match advanceTk tks s with
      | .error m => .error m
      | .ok (_, s1) =>
        match parseArrayElems tks fuel s1 with
        | .error m => .error m
        | .ok (elems, s2) =>
          match expectTk tks .RBRACKET s2 with
          | .error m => .error m
          | .ok (_, s3) => .ok (.arrayLit elems, s3)
    else if matchTk tks s [.LBRACE] then
      match advanceTk tks s with
      | .error m => .error m
      | .ok (_, s1) =>
        match parseObjectProps tks fuel s1 with
        | .error m => .error m
        | .ok (props, s2) =>
          match expectTk tks .RBRACE s2 with
          | .error m => .error m
          | .ok (_, s3) => .ok (.objectLit props, s3)
    else if matchTk tks s [.LPAREN] then
      match advanceTk tks s with
      | .error m => .error m
      | .ok (_, s1) =>
        match parseExpression tks fuel s1 with
        | .error m => .error m
        | .ok (expr, s2) =>
          match expectTk tks .RPAREN s2 with
          | .error m => .error m
          | .ok (_, s3) => .ok (expr, s3)
    else if matchTk tks s [.IDENTIFIER] then
      match advanceTk tks s with
      | .error m => .error m
      | .ok (t, s1) => .ok (.ident t.value, s1)
    else
      .error ("Unexpected token: " ++ (peek tks s).value ++ " at line " ++
        toString (peek tks s).line)

  termination_by structural fuel _ => fuel

/-- Array-literal element loop (`while` not `]`), commas optional. -/
def parseArrayElems (tks : List Token) : Nat → PState → PRes (List AST)
  | 0, _ => .error "model: out of fuel"
  | fuel + 1, s =>
    if matchTk tks s [.RBRACKET] then .ok ([], s)
    else
      match parseExpression tks fuel s with
      | .error m => .error m
      | .ok (e, s1) =>
        match
          (if matchTk tks s1 [.COMMA] then advanceTk tks s1
           else (.ok (dummyToken, s1) : PRes Token)) with
        | .error m => .error m
        | .ok (_, s2) =>
          match parseArrayElems tks fuel s2 with
          | .error m => .error m
          | .ok (es, s3) => .ok (e :: es, s3)

  termination_by structural fuel _ => fuel

/-- Object-literal property loop: `"key" : value`, commas optional. -/
def parseObjectProps (tks : List Token) : Nat → PState → PRes (List (String × AST))
  | 0, _ => .error "model: out of fuel"
  | fuel + 1, s =>
    if matchTk tks s [.RBRACE] then .ok ([], s)
    else
      match expectTk tks .STRING s with
      | .error m => .error m
      | .ok (keyTok, s1) =>
        match expectTk tks .COLON s1 with
        | .error m => .error m
        | .ok (_, s2) =>
          match parseExpression tks fuel s2 with
          | .error m => .error m
          | .ok (v, s3) =>
            match
              (if matchTk tks s3 [.COMMA] then advanceTk tks s3
               else (.ok (dummyToken, s3) : PRes Token)) with
            | .error m => .error m
            | .ok (_, s4) =>
              match parseObjectProps tks fuel s4 with
              | .error m => .error m
              | .ok (ps, s5) => .ok ((keyTok.value, v) :: ps, s5)
  termination_by structural fuel _ => fuel

end

/-- Parser entry point: filter newline tokens (done in the constructor)
and parse one `Program` from a fresh state with no declared
capabilities. -/
def parseTokens (tokens : List Token) (fuel : Nat) : Except String AST :=
  let tks := tokens.filter (fun t => t.type ≠ TokenType.NEWLINE)
  match parseProgram tks fuel ⟨0, []⟩ with
  | .error m => .error m
  | .ok (prog, _) => .ok prog

end Parser

/-! ## Spec-side definitions

Definitions in this section follow the specification's wording and are
compared against the source-translated functions above. -/

namespace Interp

/-- The environment chain seen from frame `e`: the frame itself followed
by its ancestors ("lookup walks outward from the innermost scope to the
root").  The same `p < e` well-formedness guard as in `lookupVar` and
`setVar` keeps the walk finite on arbitrary stores. -/
def envChainGas (st : State) : Nat → Nat → List (Nat × Frame)
  | 0, _ => []
  | gas + 1, e =>
    match getFrame st e with
    | none => []
    | some f =>
      (e, f) ::
        (match f.parent with
         | some p => if p < e then envChainGas st gas p else []
         | none => [])

/-- The environment chain seen from frame `e`. -/
def envChain (st : State) (e : Nat) : List (Nat × Frame) :=
  envChainGas st (e + 1) e

/-- The nearest binding of `name` walking the chain from the innermost
scope outward. -/
def nearestBinding (st : State) (name : String) (e : Nat) :
    Option (Nat × Binding) :=
  (envChain st e).findSome? fun ef =>
    (alistGet ef.2.vars name).map fun b => (ef.1, b)

/-- Spec-side field initialisation, following the spec's words: "a field
with an explicit initializer always takes that initializer's value and
consumes no constructor argument; a field with no initializer takes the
next unconsumed positional constructor argument, or null if none
remain" — the unconsumed arguments are carried directly as a shrinking
list instead of the source's `argIndex` counter. -/
def initFieldsSpec : Nat → List VarDecl → List Value → Nat → State → Res Unit
  | 0, _, _, _, st => .err "model: out of fuel" st
  | _ + 1, [], _, _, st => .ok () st
  | fuel + 1, fld :: rest, unconsumed, e, st =>
    match fld.initializer with
    | some init =>
      match evalExprSync fuel init e st with
      | .err m st' => .err m st'
      | .ok v st1 =>
        initFieldsSpec fuel rest unconsumed e
          (defineIn st1 e fld.name ⟨v, fld.mutable⟩)
    | none =>
      match unconsumed with
      | v :: restArgs =>
        initFieldsSpec fuel rest restArgs e
          (defineIn st e fld.name ⟨v, fld.mutable⟩)
      | [] =>
        initFieldsSpec fuel rest [] e
          (defineIn st e fld.name ⟨.null, fld.mutable⟩)

/-- Spec-side print-part evaluation, following the spec's words:
"values that are callables are auto-invoked with no arguments before
stringification" — for every printed expression, not only plain
identifiers. -/
def printPartsSpec : Nat → List AST → Nat → State → Res (List String)
  | 0, _, _, st => .err "model: out of fuel" st
  | _ + 1, [], _, st => .ok [] st
  | fuel + 1, e :: rest, env, st =>
    match evalExpr fuel e env st with
    | .err m st' => .err m st'
    | .ok v st1 =>
      match
        (if isFunction st1 v then callValue fuel v [] st1
         else .ok v st1) with
      | .err m st' => .err m st'
      | .ok v' st2 =>
        match printPartsSpec fuel rest env st2 with
        | .err m st' => .err m st'
        | .ok parts st3 => .ok (stringify st2 v' :: parts) st3

/-- Spec-side printing built on `printPartsSpec`: join with no
separator, one output line. -/
def executePrintSpec : Nat → List AST → Nat → State → Res Value
  | 0, _, _, st => .err "model: out of fuel" st
  | fuel + 1, expressions, env, st =>
    match printPartsSpec fuel expressions env st with
    | .err m st' => .err m st'
    | .ok parts st1 =>
      .ok .null { st1 with output := st1.output ++ [String.join parts] }

end Interp

/-! ### Concrete fixture: the Counter program

A record `Counter` with mutable field `count = 0` and a method
`increment` whose body increments `count` and ends with the expression
statement `count` (the engine has no construct for returning a value
from a task), instantiated once and incremented twice with the field
printed after each call. -/

namespace Interp

/-- The `increment` method. -/
def incrTask : TaskDecl :=
  ⟨"increment", [],
   [.assignment (.ident "count") (.binary "+" (.ident "count") (.lit (.num 1))),
    .exprStmt (.ident "count")]⟩

/-- The `Counter` group declaration. -/
def counterDecl : AST :=
  .groupDecl "Counter" [.mk "count" true none (some (.lit (.num 0)))] [incrTask]

/-- The statement invoking `c.increment()`. -/
def incrCallStmt : AST :=
  .exprStmt (.call (.member (.ident "c") (.ident "increment") false) [])

/-- The whole Counter program. -/
def counterProg : List AST :=
  [counterDecl,
   .varStmt (.mk "c" true none (some (.call (.ident "Counter") []))),
   incrCallStmt,
   .printStmt [.member (.ident "c") (.ident "count") false],
   incrCallStmt,
   .printStmt [.member (.ident "c") (.ident "count") false]]

/-- The interpreter's `groups` table after the declaration. -/
def counterGroups : List (String × GroupDef) :=
  [("Counter", ⟨"Counter", [.mk "count" true none (some (.lit (.num 0)))],
     [("increment", incrTask)], []⟩)]

/-- State after the group declaration. -/
def cS1 : State :=
  ⟨[⟨[("Counter", ⟨.ref 0, false⟩)], none⟩], [.fn (.ctor "Counter")],
   counterGroups, [], [], []⟩

/-- State after `free c = Counter()`. -/
def cS2 : State :=
  ⟨[⟨[("Counter", ⟨.ref 0, false⟩), ("c", ⟨.ref 2, true⟩)], none⟩,
    ⟨[("count", ⟨.num 0, true⟩)], some 0⟩],
   [.fn (.ctor "Counter"), .fn (.method incrTask 1),
    .inst ⟨"Counter", 1, ["count"], [("__groupName", .str "Counter"), ("increment", .ref 1)]⟩],
   counterGroups, [], [], []⟩

/-- State after the first `c.increment()`. -/
def cS3 : State :=
  ⟨[⟨[("Counter", ⟨.ref 0, false⟩), ("c", ⟨.ref 2, true⟩)], none⟩,
    ⟨[("count", ⟨.num 1, true⟩)], some 0⟩,
    ⟨[], some 1⟩],
   [.fn (.ctor "Counter"), .fn (.method incrTask 1),
    .inst ⟨"Counter", 1, ["count"], [("__groupName", .str "Counter"), ("increment", .ref 1)]⟩],
   counterGroups, [], [], []⟩

/-- State after printing the field once (`1`). -/
def cS4 : State :=
  ⟨cS3.envs, cS3.heap, counterGroups, [], ["1"], []⟩

/-- State after the second `c.increment()`. -/
def cS5 : State :=
  ⟨[⟨[("Counter", ⟨.ref 0, false⟩), ("c", ⟨.ref 2, true⟩)], none⟩,
    ⟨[("count", ⟨.num 2, true⟩)], some 0⟩,
    ⟨[], some 1⟩,
    ⟨[], some 1⟩],
   cS3.heap, counterGroups, [], ["1"], []⟩

/-- Final state: both field values printed. -/
def cS6 : State :=
  ⟨cS5.envs, cS5.heap, counterGroups, [], ["1", "2"], []⟩

/-- Modelled invariant: evaluation in the synchronous block only appends
environments, never changes the parent of an existing frame, and only
appends to the heap. -/
def stExtends (st st' : State) : Prop :=
  st.envs.length ≤ st'.envs.length ∧
  (∀ e, e < st.envs.length →
    (st'.envs.get? e).map Frame.parent = (st.envs.get? e).map Frame.parent) ∧
  ∃ l, st'.heap = st.heap ++ l

/-- State after one bare instantiation of `Counter` from `cS1`. -/
def cJ1 : State :=
  ⟨[⟨[("Counter", ⟨.ref 0, false⟩)], none⟩,
    ⟨[("count", ⟨.num 0, true⟩)], some 0⟩],
   [.fn (.ctor "Counter"), .fn (.method incrTask 1),
    .inst ⟨"Counter", 1, ["count"], [("__groupName", .str "Counter"), ("increment", .ref 1)]⟩],
   counterGroups, [], [], []⟩


/-- State after a second instantiation of `Counter` from `cJ1`. -/
def cJ2 : State :=
  ⟨[⟨[("Counter", ⟨.ref 0, false⟩)], none⟩,
    ⟨[("count", ⟨.num 0, true⟩)], some 0⟩,
    ⟨[("count", ⟨.num 0, true⟩)], some 0⟩],
   [.fn (.ctor "Counter"), .fn (.method incrTask 1),
    .inst ⟨"Counter", 1, ["count"], [("__groupName", .str "Counter"), ("increment", .ref 1)]⟩,
    .fn (.method incrTask 2),
    .inst ⟨"Counter", 2, ["count"], [("__groupName", .str "Counter"), ("increment", .ref 3)]⟩],
   counterGroups, [], [], []⟩

end Interp

/-! ## Theorems -/

section Theorems

open Interp
open Parser

theorem alistGet_set_self {β : Type} (l : List (String × β)) (k : String) (v : β) :
    alistGet (alistSet l k v) k = some v := by
  induction l with
  | nil => simp [alistSet, alistGet]
  | cons h t ih =>
    obtain ⟨k', v'⟩ := h
    by_cases hk : k' = k
    · simp [alistSet, alistGet, hk]
    · simp [alistSet, alistGet, hk, ih]

theorem alistGet_set_ne {β : Type} (l : List (String × β)) (k k' : String)
    (v : β) (h : k ≠ k') : alistGet (alistSet l k v) k' = alistGet l k' := by
  induction l with
  | nil => simp [alistSet, alistGet, h]
  | cons hd t ih =>
    obtain ⟨k₀, v₀⟩ := hd
    by_cases hk : k₀ = k
    · subst hk
      simp [alistSet, alistGet, h]
    · simp [alistSet, alistGet, hk, ih]

/-- The chain walk does not depend on the exact gas bound, as long as it
exceeds the frame index. -/
theorem envChainGas_irrel (st : State) :
    ∀ e gas gas', e < gas → e < gas' →
      envChainGas st gas e = envChainGas st gas' e := by
  intro e
  induction e using Nat.strong_induction_on with
  | _ e ih =>
    intro gas gas' hg hg'
    cases gas with
    | zero => omega
    | succ g =>
      cases gas' with
      | zero => omega
      | succ g' =>
        simp only [envChainGas]
        cases hf : getFrame st e with
        | none => rfl
        | some f =>
          cases hp : f.parent with
          | none => simp [hp]
          | some p =>
            by_cases hlt : p < e
            · simp [hp, hlt, ih p hlt g g' (by omega) (by omega)]
            · simp [hp, hlt]

/-- One-step unfolding of `envChain`. -/
theorem envChain_unfold (st : State) (e : Nat) :
    envChain st e =
      match getFrame st e with
      | none => []
      | some f =>
        (e, f) ::
          (match f.parent with
           | some p => if p < e then envChain st p else []
           | none => []) := by
  show envChainGas st (e + 1) e = _
  simp only [envChainGas]
  cases hf : getFrame st e with
  | none => rfl
  | some f =>
    cases hp : f.parent with
    | none => simp [hp]
    | some p =>
      by_cases hlt : p < e
      · simp [hp, hlt, envChain, envChainGas_irrel st p e (p + 1) hlt (by omega)]
      · simp [hp, hlt]

/-- One-step unfolding of `nearestBinding`, aligned with the recursion
of `setVar`. -/
theorem nearestBinding_unfold (st : State) (name : String) (e : Nat) :
    nearestBinding st name e =
      match getFrame st e with
      | none => none
      | some f =>
        match alistGet f.vars name with
        | some b => some (e, b)
        | none =>
          match f.parent with
          | some p => if p < e then nearestBinding st name p else none
          | none => none := by
  rw [nearestBinding, envChain_unfold]
  cases hf : getFrame st e with
  | none => simp
  | some f =>
    cases hg : alistGet f.vars name with
    | some b => simp [List.findSome?, hg]
    | none =>
      cases hp : f.parent with
      | none => simp [List.findSome?, hg, hp]
      | some p =>
        by_cases hlt : p < e
        · simp [List.findSome?, hg, hp, hlt, nearestBinding]
        · simp [List.findSome?, hg, hp, hlt]

/-- The binding walk of `setVariable` does not depend on the exact gas
bound either. -/
theorem setVarGas_irrel (st : State) (name : String) (v : Value) :
    ∀ e gas gas', e < gas → e < gas' →
      setVarGas st name v gas e = setVarGas st name v gas' e := by
  intro e
  induction e using Nat.strong_induction_on with
  | _ e ih =>
    intro gas gas' hg hg'
    cases gas with
    | zero => omega
    | succ g =>
      cases gas' with
      | zero => omega
      | succ g' =>
        simp only [setVarGas]
        cases hf : getFrame st e with
        | none => rfl
        | some f =>
          cases hb : alistGet f.vars name with
          | some b => simp [hb]
          | none =>
            cases hp : f.parent with
            | none => simp [hb, hp]
            | some p =>
              by_cases hlt : p < e
              · simp [hb, hp, hlt, ih p hlt g g' (by omega) (by omega)]
              · simp [hb, hp, hlt]

/-- One-step unfolding of `setVar`, matching the source's chain walk. -/
theorem setVar_unfold (st : State) (name : String) (v : Value) (e : Nat) :
    setVar st name v e =
      match getFrame st e with
      | none => .error ("Undefined variable: " ++ name)
      | some f =>
        match alistGet f.vars name with
        | some b =>
          if b.mutable then
            .ok (setFrame st e { f with vars := alistSet f.vars name ⟨v, true⟩ })
          else .error ("Cannot reassign immutable variable: " ++ name)
        | none =>
          match f.parent with
          | some p =>
            if p < e then setVar st name v p
            else .error ("Undefined variable: " ++ name)
          | none => .error ("Undefined variable: " ++ name) := by
  show setVarGas st name v (e + 1) e = _
  simp only [setVarGas]
  cases hf : getFrame st e with
  | none => rfl
  | some f =>
    cases hb : alistGet f.vars name with
    | some b => simp [hb]
    | none =>
      cases hp : f.parent with
      | none => simp [hb, hp]
      | some p =>
        by_cases hlt : p < e
        · simp [hb, hp, hlt, setVar, setVarGas_irrel st name v p e (p + 1) hlt (by omega)]
        · simp [hb, hp, hlt]

/-- The lookup walk does not depend on the exact gas bound. -/
theorem lookupVarGas_irrel (st : State) (name : String) :
    ∀ e gas gas', e < gas → e < gas' →
      lookupVarGas st name gas e = lookupVarGas st name gas' e := by
  intro e
  induction e using Nat.strong_induction_on with
  | _ e ih =>
    intro gas gas' hg hg'
    cases gas with
    | zero => omega
    | succ g =>
      cases gas' with
      | zero => omega
      | succ g' =>
        simp only [lookupVarGas]
        cases hf : getFrame st e with
        | none => rfl
        | some f =>
          cases hb : alistGet f.vars name with
          | some b => simp [hb]
          | none =>
            cases hp : f.parent with
            | none => simp [hb, hp]
            | some p =>
              by_cases hlt : p < e
              · simp [hb, hp, hlt, ih p hlt g g' (by omega) (by omega)]
              · simp [hb, hp, hlt]

/-- One-step unfolding of `lookupVar`, matching the source's chain
walk. -/
theorem lookupVar_unfold (st : State) (name : String) (e : Nat) :
    lookupVar st name e =
      match getFrame st e with
      | none => none
      | some f =>
        match alistGet f.vars name with
        | some b => some b.value
        | none =>
          match f.parent with
          | some p => if p < e then lookupVar st name p else none
          | none => none := by
  show lookupVarGas st name (e + 1) e = _
  simp only [lookupVarGas]
  cases hf : getFrame st e with
  | none => rfl
  | some f =>
    cases hb : alistGet f.vars name with
    | some b => simp [hb]
    | none =>
      cases hp : f.parent with
      | none => simp [hb, hp]
      | some p =>
        by_cases hlt : p < e
        · simp [hb, hp, hlt, lookupVar, lookupVarGas_irrel st name p e (p + 1) hlt (by omega)]
        · simp [hb, hp, hlt]

/-- `setVariable` resolves the nearest binding in the chain: unbound
names error, an immutable nearest binding errors, a mutable one is
overwritten in place. -/
theorem setVar_characterization (st : State) (name : String) (v : Value) :
    ∀ e,
      (nearestBinding st name e = none →
        setVar st name v e = .error ("Undefined variable: " ++ name)) ∧
      (∀ i b, nearestBinding st name e = some (i, b) →
        (b.mutable = false →
          setVar st name v e = .error ("Cannot reassign immutable variable: " ++ name)) ∧
        (b.mutable = true →
          ∃ f, getFrame st i = some f ∧
            setVar st name v e =
              .ok (setFrame st i ⟨alistSet f.vars name ⟨v, true⟩, f.parent⟩))) := by
  intro e
  induction e using Nat.strong_induction_on with
  | _ e ih =>
    rw [nearestBinding_unfold, setVar_unfold]
    cases hf : getFrame st e with
    | none => simp
    | some f =>
      cases hg : alistGet f.vars name with
      | some b =>
        constructor
        · intro h; simp [hg] at h
        · intro i b' heq
          simp [hg] at heq
          obtain ⟨hi, hb⟩ := heq
          subst hi; subst hb
          constructor
          · intro hmut; simp [hg, hmut]
          · intro hmut
            refine ⟨f, hf, ?_⟩
            simp [hg, hmut]
      | none =>
        cases hp : f.parent with
        | none => simp [hg, hp]
        | some p =>
          by_cases hlt : p < e
          · simpa [hg, hp, hlt] using ih p hlt
          · simp [hg, hp, hlt]

/-- C1: executing an assignment whose target is a plain identifier
resolves to the nearest binding of that name walking the environment
chain from the innermost scope outward; it fails `Undefined variable` if
no binding exists, fails `Cannot reassign immutable variable` if the
nearest binding is immutable (leaving the whole state, hence the
binding, unchanged), and otherwise overwrites exactly that nearest
binding with the evaluated right-hand value. -/
theorem C1_assignment_resolves_nearest_binding :
    ∀ (st : State) (name : String) (v : Value) (e : Nat),
      (nearestBinding st name e = none →
        setVar st name v e = .error ("Undefined variable: " ++ name)) ∧
      (∀ i b, nearestBinding st name e = some (i, b) →
        (b.mutable = false →
          setVar st name v e =
            .error ("Cannot reassign immutable variable: " ++ name)) ∧
        (b.mutable = true →
          ∃ f, getFrame st i = some f ∧
            setVar st name v e =
              .ok (setFrame st i ⟨alistSet f.vars name ⟨v, true⟩, f.parent⟩))) ∧
      (∀ fuel l i b, nearestBinding st name e = some (i, b) → b.mutable = false →
        evalStmt (fuel + 2) (.assignment (.ident name) (.lit l)) e st =
          .err ("Cannot reassign immutable variable: " ++ name) st) := by
  intro st name v e
  refine ⟨(setVar_characterization st name v e).1,
          (setVar_characterization st name v e).2, ?_⟩
  intro fuel l i b hnb hmut
  have herr := ((setVar_characterization st name (litVal l) e).2 i b hnb).1 hmut
  show evalStmt (fuel + 1 + 1) (.assignment (.ident name) (.lit l)) e st =
    .err ("Cannot reassign immutable variable: " ++ name) st
  simp [evalStmt, evalExpr, herr]

/-- Witness for C1 at a concrete store: assigning to the immutable
binding `x` fails with the immutability error and leaves the state
untouched. -/
theorem C1_assignment_witness :
    Interp.evalStmt 2 (.assignment (.ident "x") (.lit (.num 6))) 0
        ⟨[⟨[("x", ⟨.num 5, false⟩)], none⟩], [], [], [], [], []⟩ =
      .err "Cannot reassign immutable variable: x"
        ⟨[⟨[("x", ⟨.num 5, false⟩)], none⟩], [], [], [], [], []⟩ := by
  exact
    (C1_assignment_resolves_nearest_binding
        ⟨[⟨[("x", ⟨.num 5, false⟩)], none⟩], [], [], [], [], []⟩ "x" (.num 6) 0).2.2
      0 (.num 6) 0 ⟨.num 5, false⟩ (by decide) (by decide)

/-- Fields are initialised in declaration order with an `argIndex`
cursor; this equals the spec-side formulation where the unconsumed
arguments form a shrinking list. -/
theorem initFields_eq_spec :
    ∀ fuel fields args idx e st,
      initFields fuel fields args idx e st =
        initFieldsSpec fuel fields (args.drop idx) e st := by
  intro fuel
  induction fuel with
  | zero => intro fields args idx e st; rfl
  | succ fuel ih =>
    intro fields args idx e st
    cases fields with
    | nil => rfl
    | cons fld rest =>
      simp only [initFields, initFieldsSpec]
      cases hi : fld.initializer with
      | some init =>
        cases h : evalExprSync fuel init e st with
        | err m st' => simp [h]
        | ok v st1 => simp [h, ih]
      | none =>
        cases hidx : args.get? idx with
        | some v =>
          obtain ⟨hlt, hv⟩ := List.get?_eq_some.mp hidx
          have hd : args.drop idx = v :: args.drop (idx + 1) := by
            rw [List.drop_eq_get_cons hlt, hv]
          simp [hidx, hd, ih]
        | none =>
          have hle : args.length ≤ idx := List.get?_eq_none.mp hidx
          have hd : args.drop idx = [] := List.drop_eq_nil_of_le hle
          simp [hidx, hd, ih]

/-- C3: record fields are initialised in declaration order; a field with
an explicit initializer takes that initializer's value and consumes no
constructor argument, a field without one takes the next unconsumed
positional argument, or null when none remain.  Stated as the
equivalence of the source's cursor-based loop with the spec-side
list-consumption formulation, together with a concrete instantiation:
fields `a = 10`, `b`, `c` with arguments `[1, 2]` yield `a = 10`,
`b = 1`, `c = 2`. -/
theorem C3_record_field_initialization :
    (∀ fuel fields args idx e st,
      initFields fuel fields args idx e st =
        initFieldsSpec fuel fields (args.drop idx) e st) ∧
    (instantiateGroup 5 "G" [.num 1, .num 2]
        ⟨[⟨[], none⟩], [],
         [("G", ⟨"G", [.mk "a" true none (some (.lit (.num 10))),
                       .mk "b" true none none,
                       .mk "c" true none none], [], []⟩)], [], [], []⟩ =
      .ok (.ref 0)
        ⟨[⟨[], none⟩,
          ⟨[("a", ⟨.num 10, true⟩), ("b", ⟨.num 1, true⟩), ("c", ⟨.num 2, true⟩)],
           some 0⟩],
         [.inst ⟨"G", 1, ["a", "b", "c"], [("__groupName", .str "G")]⟩],
         [("G", ⟨"G", [.mk "a" true none (some (.lit (.num 10))),
                       .mk "b" true none none,
                       .mk "c" true none none], [], []⟩)], [], [], []⟩) := by
  refine ⟨initFields_eq_spec, ?_⟩
  simp [instantiateGroup, alistGet, initFields, evalExprSync, litVal, defineIn,
    getFrame, setFrame, allocEnv, allocHeap, bindMethods, bindImpls, alistSet,
    VarDecl.name, VarDecl.mutable, VarDecl.initializer]

/-- Helper for C10: the per-iteration environment of an `each` loop
binds the loop variable immutably, so an assignment to it in the body
fails with the immutability error, the binding itself untouched. -/
theorem C10_each_part :
    ∀ fuel (var xsName : String) (item : Value) (rest : List Value)
      (rhs : Lit) (env : Nat) (st : State) (r : Nat),
      lookupVar st xsName env = some (.ref r) →
      getHeap st r = some (.arr (item :: rest)) →
      executeEachLoop (fuel + 5) var (.ident xsName)
          [.assignment (.ident var) (.lit rhs)] env st =
        .err ("Cannot reassign immutable variable: " ++ var)
          { st with envs := st.envs ++ [⟨[(var, ⟨item, false⟩)], some env⟩] } := by
  intro fuel var xsName item rest rhs env st r hlook hheap
  have hsv :
      ∀ v, setVar { st with envs := st.envs ++ [⟨[(var, ⟨item, false⟩)], some env⟩] }
        var v st.envs.length =
      .error ("Cannot reassign immutable variable: " ++ var) := by
    intro v
    rw [setVar_unfold]
    simp [getFrame, alistGet]
  simp [executeEachLoop, evalExpr, eachIter, evalStmts, evalStmt, allocEnv, defineIn,
    getFrame, setFrame, hlook, hheap, hsv, alistSet, List.get?_concat_length]

/-- Helper for C10: same for a `march` loop over an inclusive integer
range (`k ≥ 0` extra steps, so the loop body runs at least once). -/
theorem C10_march_part :
    ∀ fuel (var : String) (s : Int) (k : Nat) (rhs : Lit) (env : Nat) (st : State),
      executeMarchLoop (fuel + 5) var (.lit (.num s)) (.lit (.num (s + k)))
          [.assignment (.ident var) (.lit rhs)] env st =
        .err ("Cannot reassign immutable variable: " ++ var)
          { st with envs := st.envs ++ [⟨[(var, ⟨.num s, false⟩)], some env⟩] } := by
  intro fuel var s k rhs env st
  have hsv :
      ∀ v, setVar { st with envs := st.envs ++ [⟨[(var, ⟨.num s, false⟩)], some env⟩] }
        var v st.envs.length =
      .error ("Cannot reassign immutable variable: " ++ var) := by
    intro v
    rw [setVar_unfold]
    simp [getFrame, alistGet]
  have hstop : ¬(s + (k : Int) < s) := by omega
  simp [executeMarchLoop, evalExpr, marchIter, evalStmts, evalStmt, allocEnv, defineIn,
    getFrame, setFrame, hsv, alistSet, litVal, hstop, List.get?_concat_length]

/-- C10: in both `each` and `march` loops the iteration variable is
bound with the immutable flag in the per-iteration environment, so an
assignment to the iteration variable inside the loop body fails with an
immutability error instead of changing the variable (the loop frame
still holds the iteration value, immutably). -/
theorem C10_loop_variable_immutable :
    (∀ fuel (var xsName : String) (item : Value) (rest : List Value)
        (rhs : Lit) (env : Nat) (st : State) (r : Nat),
      lookupVar st xsName env = some (.ref r) →
      getHeap st r = some (.arr (item :: rest)) →
      executeEachLoop (fuel + 5) var (.ident xsName)
          [.assignment (.ident var) (.lit rhs)] env st =
        .err ("Cannot reassign immutable variable: " ++ var)
          { st with envs := st.envs ++ [⟨[(var, ⟨item, false⟩)], some env⟩] }) ∧
    (∀ fuel (var : String) (s : Int) (k : Nat) (rhs : Lit) (env : Nat) (st : State),
      executeMarchLoop (fuel + 5) var (.lit (.num s)) (.lit (.num (s + k)))
          [.assignment (.ident var) (.lit rhs)] env st =
        .err ("Cannot reassign immutable variable: " ++ var)
          { st with envs := st.envs ++ [⟨[(var, ⟨.num s, false⟩)], some env⟩] }) :=
  ⟨C10_each_part, C10_march_part⟩

/-- Witness for C10 at concrete loops. -/
theorem C10_loop_variable_immutable_witness :
    executeEachLoop 5 "i" (.ident "xs") [.assignment (.ident "i") (.lit (.num 9))] 0
        ⟨[⟨[("xs", ⟨.ref 0, true⟩)], none⟩], [.arr [.num 7]], [], [], [], []⟩ =
      .err "Cannot reassign immutable variable: i"
        ⟨[⟨[("xs", ⟨.ref 0, true⟩)], none⟩, ⟨[("i", ⟨.num 7, false⟩)], some 0⟩],
         [.arr [.num 7]], [], [], [], []⟩ ∧
    executeMarchLoop 5 "i" (.lit (.num 1)) (.lit (.num 3))
        [.assignment (.ident "i") (.lit (.num 9))] 0
        ⟨[⟨[], none⟩], [], [], [], [], []⟩ =
      .err "Cannot reassign immutable variable: i"
        ⟨[⟨[], none⟩, ⟨[("i", ⟨.num 1, false⟩)], some 0⟩], [], [], [], [], []⟩ := by
  constructor
  · exact
      C10_loop_variable_immutable.1 0 "i" "xs" (.num 7) [] (.num 9) 0
        ⟨[⟨[("xs", ⟨.ref 0, true⟩)], none⟩], [.arr [.num 7]], [], [], [], []⟩ 0
        (by rfl) (by rfl)
  · exact C10_loop_variable_immutable.2 0 "i" 1 2 (.num 9) 0 ⟨[⟨[], none⟩], [], [], [], [], []⟩

/-- C6 counterexample: `1 + yes` evaluates to the number `2` (JS
coerces the boolean to `1`), not to any string concatenation of the
operands’ textual representations (neither the engine’s `stringify`
forms `1`/`yes` nor the JS `ToString` forms `1`/`true`). -/
theorem C6_plus_counterexample :
    evalExpr 2 (.binary "+" (.lit (.num 1)) (.lit (.bool true))) 0 (initState []) =
      .ok (.num 2) (initState []) ∧
    Value.num 2 ≠
      Value.str (stringify (initState []) (.num 1) ++
        stringify (initState []) (.bool true)) ∧
    Value.num 2 ≠
      Value.str (jsToString (initState []) 1 (.num 1) ++
        jsToString (initState []) 1 (.bool true)) := by
  refine ⟨rfl, by decide, by decide⟩

/-- C6 amended: `+` performs numeric addition when both operands are
numeric; when either operand (after JS `ToPrimitive`, which turns heap
values into their string conversions) is a string, the result is string
concatenation of the JS string conversions; other primitive operands are
numerically coerced (booleans to 0/1), e.g. a number plus a boolean is
numeric addition.  Includes the concrete heap case `[1,2] + "!" =
"1,2!"`. -/
theorem C6_plus_semantics :
    (∀ fuel (a b : Int) (env : Nat) (st : State),
      evalExpr (fuel + 2) (.binary "+" (.lit (.num a)) (.lit (.num b))) env st =
        .ok (.num (a + b)) st) ∧
    (∀ fuel (l r : Lit) (env : Nat) (st : State),
      (∃ s, l = .str s) ∨ (∃ s, r = .str s) →
      evalExpr (fuel + 2) (.binary "+" (.lit l) (.lit r)) env st =
        .ok (.str (primToString (litVal l) ++ primToString (litVal r))) st) ∧
    (∀ fuel (n : Int) (b : Bool) (env : Nat) (st : State),
      evalExpr (fuel + 2) (.binary "+" (.lit (.num n)) (.lit (.bool b))) env st =
        .ok (.num (n + if b then 1 else 0)) st) ∧
    (evalExpr 6 (.binary "+" (.arrayLit [.lit (.num 1), .lit (.num 2)]) (.lit (.str "!")))
        0 (initState []) =
      .ok (.str "1,2!") ⟨[⟨[], none⟩], [.arr [.num 1, .num 2]], [], [], [], []⟩) := by
  refine ⟨?_, ?_, ?_, rfl⟩
  · intro fuel a b env st
    simp [evalExpr, applyBinop, jsAdd, toPrim, primToNumber, litVal]
  · intro fuel l r env st h
    rcases h with ⟨s, rfl⟩ | ⟨s, rfl⟩
    · cases r <;> simp [evalExpr, applyBinop, jsAdd, toPrim, primToString, primToNumber, litVal]
    · cases l <;> simp [evalExpr, applyBinop, jsAdd, toPrim, primToString, primToNumber, litVal]
  · intro fuel n b env st
    cases b <;> simp [evalExpr, applyBinop, jsAdd, toPrim, primToNumber, litVal]

/-- Witness for C6 amended at a concrete string operand. -/
theorem C6_plus_semantics_witness :
    evalExpr 2 (.binary "+" (.lit (.str "a")) (.lit (.num 1))) 0 (initState []) =
      .ok (.str "a1") (initState []) := by
  have h :=
    C6_plus_semantics.2.1 0 (.str "a") (.num 1) 0 (initState [])
      (Or.inl ⟨"a", rfl⟩)
  simpa [primToString, litVal] using h

/-- C2: whenever the parser meets the capability-gated `route` keyword
at top level (or `respond` in statement position) and the `web`
capability has not been declared, it fails immediately with an error
naming both the keyword and the capability; a concrete file using
`route` without the declaration fails to parse with exactly that error,
and the same file with `declare web` on top parses successfully. -/
theorem C2_capability_gating :
    (∀ (tks : List Token) (fuel : Nat) (s : PState),
      (peek tks s).type = .ROUTE → isDeclared s "web" = false →
      parseTopLevelStatement tks (fuel + 1) s = .error routeGateMsg) ∧
    (∀ (tks : List Token) (fuel : Nat) (s : PState),
      (peek tks s).type = .RESPOND → isDeclared s "web" = false →
      parseStatement tks (fuel + 1) s = .error respondGateMsg) ∧
    (parseTokens
        [⟨.ROUTE, "route", 1, 1⟩, ⟨.STRING, "/", 1, 7⟩, ⟨.ARROW, "=>", 1, 11⟩,
         ⟨.END, "end", 2, 1⟩, ⟨.EOF, "", 3, 1⟩] 50 =
      .error "Feature 'route' requires declare web at top of file") ∧
    ((parseTokens
        [⟨.DECLARE, "declare", 0, 1⟩, ⟨.IDENTIFIER, "web", 0, 9⟩,
         ⟨.ROUTE, "route", 1, 1⟩, ⟨.STRING, "/", 1, 7⟩, ⟨.ARROW, "=>", 1, 11⟩,
         ⟨.END, "end", 2, 1⟩, ⟨.EOF, "", 3, 1⟩] 50).isOk = true) := by
  refine ⟨?_, ?_, rfl, rfl⟩
  · intro tks fuel s hpeek hdecl
    simp [parseTopLevelStatement, matchTk, hpeek, hdecl, routeGateMsg]
  · intro tks fuel s hpeek hdecl
    simp [parseStatement, matchTk, hpeek, hdecl, respondGateMsg]

/-- Witness for C2: the gating checks fired at concrete token
streams. -/
theorem C2_capability_gating_witness :
    parseTopLevelStatement [⟨.ROUTE, "route", 1, 1⟩] 1 ⟨0, []⟩ =
      .error "Feature 'route' requires declare web at top of file" ∧
    parseStatement [⟨.RESPOND, "respond", 1, 1⟩] 1 ⟨0, []⟩ =
      .error "Feature 'respond' requires declare web at top of file" :=
  ⟨C2_capability_gating.1 [⟨.ROUTE, "route", 1, 1⟩] 0 ⟨0, []⟩ rfl rfl,
   C2_capability_gating.2.1 [⟨.RESPOND, "respond", 1, 1⟩] 0 ⟨0, []⟩ rfl rfl⟩

/-- Helper: evaluating an object literal whose property values are all
literals allocates the corresponding heap object with no other
effects. -/
theorem evalProps_lits :
    ∀ (props : List (String × Lit)) (fuel : Nat) (env : Nat) (st : State),
      props.length < fuel →
      evalProps fuel (props.map fun p => (p.1, AST.lit p.2)) env st =
        .ok (props.map fun p => (p.1, litVal p.2)) st := by
  intro props
  induction props with
  | nil =>
    intro fuel env st h
    cases fuel with
    | zero => omega
    | succ f => simp [evalProps]
  | cons p rest ih =>
    intro fuel env st h
    cases fuel with
    | zero => omega
    | succ f =>
      cases f with
      | zero => simp at h
      | succ f' =>
        simp only [List.map_cons, evalProps, evalExpr]
        rw [ih (f' + 1) env st (by simp at h; omega)]

/-- Helper for C4: for an arbitrary literal-object subject and a
guard-free case, the case body's output line appears iff the subject
owns the case key. -/
theorem select_single_case_output :
    ∀ (fuel : Nat) (props : List (String × Lit)) (key outS : String)
        (env : Nat) (st : State),
      executeSelect (fuel + props.length + 8)
          (.objectLit (props.map fun p => (p.1, AST.lit p.2)))
          [⟨key, [], [.printStmt [.lit (.str outS)]]⟩] env st =
        .ok .null
          { st with
            heap := st.heap ++ [.obj (props.map fun p => (p.1, litVal p.2))],
            output := st.output ++
              (if alistHas (props.map fun p => (p.1, litVal p.2)) key then [outS]
               else []) } := by
  intro fuel props key outS env st
  have hjoin : String.join [outS] = outS := by
    simp [String.join]
  have hlv : litVal (.str outS) = .str outS := rfl
  have hsub : evalExpr (fuel + props.length + 7)
      (.objectLit (props.map fun p => (p.1, AST.lit p.2))) env st =
      .ok (.ref st.heap.length)
        { st with heap := st.heap ++ [.obj (props.map fun p => (p.1, litVal p.2))] } := by
    show evalExpr ((fuel + props.length + 6) + 1) _ env st = _
    rw [evalExpr]
    rw [evalProps_lits props (fuel + props.length + 6) env st (by omega)]
    simp [allocHeap]
  have hown : hasOwnProp
      { st with heap := st.heap ++ [.obj (props.map fun p => (p.1, litVal p.2))] }
      (.ref st.heap.length) key =
      .ok (alistHas (props.map fun p => (p.1, litVal p.2)) key) := by
    simp [hasOwnProp, getHeap, List.get?_concat_length]
  show executeSelect ((fuel + props.length + 7) + 1) _ _ env st = _
  rw [executeSelect, hsub]
  by_cases hk : alistHas (props.map fun p => (p.1, litVal p.2)) key
  · simp [selectCases, hown, hk, checkConds, evalStmts, evalStmt, executePrint,
      printParts, evalExpr, isFunction, getHeap, stringify, AST.isIdent, hjoin,
      hlv, SelectCase.key, SelectCase.conditions, SelectCase.body]
  · simp [selectCases, hown, hk, SelectCase.key, SelectCase.conditions, SelectCase.body]


/-- C4: a select case's body executes iff the subject owns the case's
key and every guard of the case evaluates truthy; cases are checked
independently in source order, so several cases may fire.  Part one is
the key-membership iff for an arbitrary literal-object subject and a
guard-free case; the concrete parts: a `"mode"` case guarded by
`mode == "production"` fires on subject `{"mode": "production"}` (with
`mode` bound in scope), the same case guarded by `mode == "debug"` does
not, and with subject `{"a": 1, "b": 2}` the independent cases keyed
`"a"`, `"missing"`, `"b"` produce exactly the `"a"` and `"b"` lines, in
order. -/
theorem C4_select_case_execution :
    (∀ (fuel : Nat) (props : List (String × Lit)) (key outS : String)
        (env : Nat) (st : State),
      executeSelect (fuel + props.length + 8)
          (.objectLit (props.map fun p => (p.1, AST.lit p.2)))
          [⟨key, [], [.printStmt [.lit (.str outS)]]⟩] env st =
        .ok .null
          { st with
            heap := st.heap ++ [.obj (props.map fun p => (p.1, litVal p.2))],
            output := st.output ++
              (if alistHas (props.map fun p => (p.1, litVal p.2)) key then [outS]
               else []) } ) ∧
    ((run [.varStmt (.mk "mode" true none (some (.lit (.str "production")))),
          .selectStmt (.objectLit [("mode", .lit (.str "production"))])
            [⟨"mode", [.binary "==" (.ident "mode") (.lit (.str "production"))],
              [.printStmt [.lit (.str "matched")]]⟩]] 15).output = ["matched"]) ∧
    ((run [.varStmt (.mk "mode" true none (some (.lit (.str "production")))),
          .selectStmt (.objectLit [("mode", .lit (.str "production"))])
            [⟨"mode", [.binary "==" (.ident "mode") (.lit (.str "debug"))],
              [.printStmt [.lit (.str "matched")]]⟩]] 15).output = []) ∧
    ((run [.selectStmt (.objectLit [("a", .lit (.num 1)), ("b", .lit (.num 2))])
            [⟨"a", [], [.printStmt [.lit (.str "A")]]⟩,
             ⟨"missing", [], [.printStmt [.lit (.str "X")]]⟩,
             ⟨"b", [], [.printStmt [.lit (.str "B")]]⟩]] 15).output = ["A", "B"]) :=
  ⟨select_single_case_output, rfl, rfl, rfl⟩

/-- C8 counterexample: conditional branches are executed directly in
the enclosing environment, so a variable declaration inside an if-branch
overwrites the outer binding — after the branch, `x` is `2`, not the `1`
the claim predicts. -/
theorem C8_counterexample :
    (run [.varStmt (.mk "x" true none (some (.lit (.num 1)))),
          .ifStmt [⟨some (.lit (.bool true)), [.varStmt (.mk "x" true none (some (.lit (.num 2))))]⟩],
          .printStmt [.ident "x"]] 10).output = ["2"] ∧
    (["2"] : List String) ≠ ["1"] := by
  exact ⟨rfl, by decide⟩

/-- Helper for C8: a declaration in an `each`-loop body lives in the
per-iteration child environment: it shadows the outer `x` inside the
body and the outer binding is unchanged afterwards. -/
theorem C8_each_shadow :
    ∀ (v w : Int),
      (run [.varStmt (.mk "x" true none (some (.lit (.num v)))),
            .eachLoop "it" (.arrayLit [.lit (.num 0)])
              [.varStmt (.mk "x" true none (some (.lit (.num w)))),
               .printStmt [.ident "x"]],
            .printStmt [.ident "x"]] 12).output =
        [numToString w, numToString v] := by
  intro v w
  simp [run, initState, evalStmts, evalStmt, evalExpr, evalExprs, executeEachLoop,
    eachIter, executePrint, printParts, allocEnv, allocHeap, defineIn, getFrame,
    setFrame, getHeap, lookupVar, lookupVarGas, alistGet, alistSet, isFunction,
    stringify, litVal, AST.isIdent, String.join, Res.output, Res.state,
    VarDecl.name, VarDecl.mutable, VarDecl.initializer, List.get?_concat_length]

/-- Helper for C8: the same shadowing discipline for task bodies. -/
theorem C8_task_shadow :
    ∀ (v w : Int),
      (run [.varStmt (.mk "x" true none (some (.lit (.num v)))),
            .taskStmt ⟨"t", [],
              [.varStmt (.mk "x" true none (some (.lit (.num w)))),
               .printStmt [.ident "x"]]⟩,
            .exprStmt (.call (.ident "t") []),
            .printStmt [.ident "x"]] 30).output =
        [numToString w, numToString v] := by
  intro v w
  simp [run, initState, evalStmts, evalStmt, evalExpr, evalExprs, callValue,
    executeTask, bindParams, executePrint, printParts, allocEnv, allocHeap,
    defineIn, getFrame, setFrame, getHeap, lookupVar, lookupVarGas, alistGet,
    alistSet, isFunction, stringify, litVal, AST.isIdent, String.join,
    Res.output, Res.state, TaskDecl.name, TaskDecl.parameters, TaskDecl.body,
    VarDecl.name, VarDecl.mutable, VarDecl.initializer, List.get?_concat_length]

/-- Helper for C8: a declaration inside a conditional branch persists
in the enclosing scope (no child environment is created). -/
theorem C8_if_leak :
    ∀ (v w : Int),
      (run [.varStmt (.mk "x" true none (some (.lit (.num v)))),
            .ifStmt [⟨some (.lit (.bool true)),
              [.varStmt (.mk "x" true none (some (.lit (.num w))))]⟩],
            .printStmt [.ident "x"]] 12).output = [numToString w] := by
  intro v w
  simp [run, initState, evalStmts, evalStmt, evalExpr, executeIf, isTruthy,
    executePrint, printParts, allocEnv, defineIn, getFrame, setFrame,
    lookupVar, lookupVarGas, alistGet, alistSet, isFunction, stringify, litVal,
    AST.isIdent, String.join, Res.output, Res.state,
    IfBranch.condition, IfBranch.body,
    VarDecl.name, VarDecl.mutable, VarDecl.initializer]

/-- C8 amended: loop bodies and task bodies run in fresh child
environments, so a variable declared there shadows an outer same-named
binding only while the body runs and the outer binding is unchanged
afterwards; conditional branches, however, run directly in the enclosing
environment, so a declaration there overwrites the outer binding. -/
theorem C8_inner_scope_shadowing :
    (∀ (v w : Int),
      (run [.varStmt (.mk "x" true none (some (.lit (.num v)))),
            .eachLoop "it" (.arrayLit [.lit (.num 0)])
              [.varStmt (.mk "x" true none (some (.lit (.num w)))),
               .printStmt [.ident "x"]],
            .printStmt [.ident "x"]] 12).output =
        [numToString w, numToString v]) ∧
    (∀ (v w : Int),
      (run [.varStmt (.mk "x" true none (some (.lit (.num v)))),
            .taskStmt ⟨"t", [],
              [.varStmt (.mk "x" true none (some (.lit (.num w)))),
               .printStmt [.ident "x"]]⟩,
            .exprStmt (.call (.ident "t") []),
            .printStmt [.ident "x"]] 30).output =
        [numToString w, numToString v]) ∧
    (∀ (v w : Int),
      (run [.varStmt (.mk "x" true none (some (.lit (.num v)))),
            .ifStmt [⟨some (.lit (.bool true)),
              [.varStmt (.mk "x" true none (some (.lit (.num w))))]⟩],
            .printStmt [.ident "x"]] 12).output = [numToString w]) :=
  ⟨C8_each_shadow, C8_task_shadow, C8_if_leak⟩

/-- C7 counterexample: a printed member expression whose value is a
callable is NOT auto-invoked — the engine prints the stringified
closure, while the spec-side rule (auto-invoke any callable) would run
the task (emitting `HI`) and print `null`. -/
theorem C7_print_counterexample :
    (executePrint 10 [.member (.ident "o") (.ident "m") false] 0
        ⟨[⟨[("f", ⟨.ref 0, false⟩), ("o", ⟨.ref 1, true⟩)], none⟩],
         [.fn (.task ⟨"f", [], [.printStmt [.lit (.str "HI")]]⟩ 0), .obj [("m", .ref 0)]],
         [], [], [], []⟩).output = [funSourceString] ∧
    (executePrintSpec 10 [.member (.ident "o") (.ident "m") false] 0
        ⟨[⟨[("f", ⟨.ref 0, false⟩), ("o", ⟨.ref 1, true⟩)], none⟩],
         [.fn (.task ⟨"f", [], [.printStmt [.lit (.str "HI")]]⟩ 0), .obj [("m", .ref 0)]],
         [], [], [], []⟩).output = ["HI", "null"] ∧
    ([funSourceString] : List String) ≠ ["HI", "null"] := by
  refine ⟨rfl, rfl, by decide⟩

/-- Helper for C7: printing evaluates the listed expressions, joins the
string representations with no separator and appends exactly one line to
the recorded output. -/
theorem C7_print_two_literals :
    ∀ (fuel : Nat) (s1 s2 : String) (env : Nat) (st : State),
      executePrint (fuel + 4) [.lit (.str s1), .lit (.str s2)] env st =
        .ok .null { st with output := st.output ++ [s1 ++ s2] } := by
  intro fuel s1 s2 env st
  have hjoin : String.join [s1, s2] = s1 ++ s2 := by
    simp [String.join]
  simp [executePrint, printParts, evalExpr, isFunction, stringify, AST.isIdent,
    litVal, hjoin]

/-- Helper for C7: a printed plain identifier bound to a callable IS
auto-invoked with no arguments before stringification (the task body
runs, then its `null` result is stringified). -/
theorem C7_ident_invoked :
    ∀ (fuel : Nat) (name tname s : String) (env : Nat) (st : State) (r envT : Nat),
      lookupVar st name env = some (.ref r) →
      getHeap st r = some (.fn (.task ⟨tname, [], [.printStmt [.lit (.str s)]]⟩ envT)) →
      executePrint (fuel + 9) [.ident name] env st =
        .ok .null
          { st with envs := st.envs ++ [⟨[], some envT⟩],
                    output := st.output ++ [s, "null"] } := by
  intro fuel name tname s env st r envT hlook hheap
  have hj1 : String.join [s] = s := by simp [String.join]
  have hj2 : String.join ["null"] = "null" := by simp [String.join]
  simp [executePrint, printParts, evalExpr, callValue, executeTask, bindParams,
    evalStmts, evalStmt, allocEnv, defineIn, isFunction, stringify, AST.isIdent,
    litVal, hlook, hheap, hj1, hj2, TaskDecl.parameters, TaskDecl.body]

/-- Helper for C7: a printed member expression evaluating to a callable
is stringified without being invoked (no body side effects appear). -/
theorem C7_member_not_invoked :
    ∀ (fuel : Nat) (objName mName : String) (env : Nat) (st : State)
        (r rf : Nat) (f : Fn),
      lookupVar st objName env = some (.ref r) →
      getHeap st r = some (.obj [(mName, .ref rf)]) →
      getHeap st rf = some (.fn f) →
      executePrint (fuel + 4) [.member (.ident objName) (.ident mName) false] env st =
        .ok .null { st with output := st.output ++ [funSourceString] } := by
  intro fuel objName mName env st r rf f hlook hobj hfn
  have hj : String.join [funSourceString] = funSourceString := by simp [String.join]
  simp [executePrint, printParts, evalExpr, memberKey, memberGet, isFunction,
    stringify, AST.isIdent, alistGet, hlook, hobj, hfn, hj]

/-- C7 amended: printing evaluates each listed expression, auto-invokes
a resulting callable with no arguments only when the printed expression
is a plain identifier (a callable reached through any other expression
shape is stringified uninvoked), joins the parts with no separator, and
appends the joined text as exactly one recorded output line. -/
theorem C7_print_semantics :
    (∀ (fuel : Nat) (s1 s2 : String) (env : Nat) (st : State),
      executePrint (fuel + 4) [.lit (.str s1), .lit (.str s2)] env st =
        .ok .null { st with output := st.output ++ [s1 ++ s2] }) ∧
    (∀ (fuel : Nat) (name tname s : String) (env : Nat) (st : State) (r envT : Nat),
      lookupVar st name env = some (.ref r) →
      getHeap st r = some (.fn (.task ⟨tname, [], [.printStmt [.lit (.str s)]]⟩ envT)) →
      executePrint (fuel + 9) [.ident name] env st =
        .ok .null
          { st with envs := st.envs ++ [⟨[], some envT⟩],
                    output := st.output ++ [s, "null"] }) ∧
    (∀ (fuel : Nat) (objName mName : String) (env : Nat) (st : State)
        (r rf : Nat) (f : Fn),
      lookupVar st objName env = some (.ref r) →
      getHeap st r = some (.obj [(mName, .ref rf)]) →
      getHeap st rf = some (.fn f) →
      executePrint (fuel + 4) [.member (.ident objName) (.ident mName) false] env st =
        .ok .null { st with output := st.output ++ [funSourceString] }) :=
  ⟨C7_print_two_literals, C7_ident_invoked, C7_member_not_invoked⟩

/-- Witness for C7 amended at concrete states: a printed identifier
bound to a task is invoked (its body line appears, then `null`); a
printed member reaching the same closure is not. -/
theorem C7_print_semantics_witness :
    executePrint 9 [.ident "f"] 0
        ⟨[⟨[("f", ⟨.ref 0, false⟩)], none⟩],
         [.fn (.task ⟨"f", [], [.printStmt [.lit (.str "HI")]]⟩ 0)], [], [], [], []⟩ =
      .ok .null
        ⟨[⟨[("f", ⟨.ref 0, false⟩)], none⟩, ⟨[], some 0⟩],
         [.fn (.task ⟨"f", [], [.printStmt [.lit (.str "HI")]]⟩ 0)], [], [],
         ["HI", "null"], []⟩ ∧
    executePrint 4 [.member (.ident "o") (.ident "m") false] 0
        ⟨[⟨[("f", ⟨.ref 0, false⟩), ("o", ⟨.ref 1, true⟩)], none⟩],
         [.fn (.task ⟨"f", [], [.printStmt [.lit (.str "HI")]]⟩ 0), .obj [("m", .ref 0)]],
         [], [], [], []⟩ =
      .ok .null
        ⟨[⟨[("f", ⟨.ref 0, false⟩), ("o", ⟨.ref 1, true⟩)], none⟩],
         [.fn (.task ⟨"f", [], [.printStmt [.lit (.str "HI")]]⟩ 0), .obj [("m", .ref 0)]],
         [], [], [funSourceString], []⟩ := by
  constructor
  · exact
      C7_print_semantics.2.1 0 "f" "f" "HI" 0
        ⟨[⟨[("f", ⟨.ref 0, false⟩)], none⟩],
         [.fn (.task ⟨"f", [], [.printStmt [.lit (.str "HI")]]⟩ 0)], [], [], [], []⟩
        0 0 (by rfl) (by rfl)
  · exact
      C7_print_semantics.2.2 0 "o" "m" 0
        ⟨[⟨[("f", ⟨.ref 0, false⟩), ("o", ⟨.ref 1, true⟩)], none⟩],
         [.fn (.task ⟨"f", [], [.printStmt [.lit (.str "HI")]]⟩ 0), .obj [("m", .ref 0)]],
         [], [], [], []⟩
        1 0 (.task ⟨"f", [], [.printStmt [.lit (.str "HI")]]⟩ 0) (by rfl) (by rfl) (by rfl)


/-! ### C5: the Counter program -/

theorem cStep1 : evalStmt 14 counterDecl 0 (initState []) = .ok .null cS1 := by
  simp [counterDecl, counterGroups, incrTask, initState, cS1, evalStmt, methodTable, sigTable,
        allocHeap, defineIn, getFrame, setFrame, alistGet, alistSet, TaskDecl.name]

theorem cStep2 : evalStmt 13 (.varStmt (.mk "c" true none (some (.call (.ident "Counter") [])))) 0 cS1
    = .ok .null cS2 := by
  simp [cS1, cS2, counterGroups, incrTask, evalStmt, evalExpr, evalExprs, callValue, lookupVar,
        lookupVarGas, alistGet, alistSet, getHeap, getFrame, setFrame, defineIn, allocEnv,
        allocHeap, setHeap, instantiateGroup, initFields, bindMethods, bindImpls, methodTable,
        evalExprSync, evalExprsSync, callFnSync, isFunction, litVal, VarDecl.name, VarDecl.mutable,
        VarDecl.varType, VarDecl.initializer, TaskDecl.name, TaskDecl.parameters, TaskDecl.body]

theorem cStep3 : evalStmt 12 incrCallStmt 0 cS2 = .ok .null cS3 := by
  simp only [incrCallStmt, cS2, cS3, counterGroups, incrTask, evalStmt, evalExpr, evalExprs,
        memberKey, callValue, executeTaskWithEnv, defineIn, getFrame, setFrame, allocEnv,
        getHeap, lookupVar, lookupVarGas, setVar, setVarGas, alistGet, alistSet, applyBinop,
        jsAdd, toPrim, primToString, primToNumber, isFunction, litVal, memberGet, evalStmts,
        bindParams, propKey, arrayIndex?, TaskDecl.name, TaskDecl.parameters, TaskDecl.body]
  rfl

theorem cStep4 : evalStmt 11 (.printStmt [.member (.ident "c") (.ident "count") false]) 0 cS3
    = .ok .null cS4 := by
  simp [cS3, cS4, counterGroups, incrTask, evalStmt, executePrint, printParts, evalExpr,
        memberKey, lookupVar, lookupVarGas, alistGet, getHeap, memberGet, propKey, arrayIndex?,
        isFunction, stringify, jsToString, numToString, AST.isIdent, getFrame,
        TaskDecl.name, TaskDecl.parameters, TaskDecl.body]
  rfl

theorem cStep5 : evalStmt 10 incrCallStmt 0 cS4 = .ok .null cS5 := by
  simp only [incrCallStmt, cS4, cS3, cS5, counterGroups, incrTask, evalStmt, evalExpr, evalExprs,
        memberKey, callValue, executeTaskWithEnv, defineIn, getFrame, setFrame, allocEnv,
        getHeap, lookupVar, lookupVarGas, setVar, setVarGas, alistGet, alistSet, applyBinop,
        jsAdd, toPrim, primToString, primToNumber, isFunction, litVal, memberGet, evalStmts,
        bindParams, propKey, arrayIndex?, TaskDecl.name, TaskDecl.parameters, TaskDecl.body]
  rfl

theorem cStep6 : evalStmt 9 (.printStmt [.member (.ident "c") (.ident "count") false]) 0 cS5
    = .ok .null cS6 := by
  simp [cS5, cS6, cS3, counterGroups, incrTask, evalStmt, executePrint, printParts, evalExpr,
        memberKey, lookupVar, lookupVarGas, alistGet, getHeap, memberGet, propKey, arrayIndex?,
        isFunction, stringify, jsToString, numToString, AST.isIdent, getFrame,
        TaskDecl.name, TaskDecl.parameters, TaskDecl.body]
  rfl

/-- C5 counterexample: in the Counter program, the `increment` method
calls do NOT yield `1` and `2` — `executeTaskWithEnv` runs the task body
for its effects and always returns `null` (the engine has no construct
for returning a value from a task), so both invocations of
`c.increment()` evaluate to `null`, which differs from both `1` and
`2`. -/
theorem C5_counter_counterexample :
    (evalStmt 12 incrCallStmt 0 cS2).value? = some Value.null ∧
    (evalStmt 10 incrCallStmt 0 cS4).value? = some Value.null ∧
    Value.null ≠ Value.num 1 ∧ Value.null ≠ Value.num 2 := by
  refine ⟨?_, ?_, by simp, by simp⟩
  · rw [cStep3]; rfl
  · rw [cStep5]; rfl

/-- C5 (amended): in the Counter program the mutable field `count` does
take the values `1` and then `2` after the first and second
`c.increment()` calls — printing `c.count` after each call outputs `1`
then `2` — but the method calls themselves both evaluate to `null`,
since task bodies return no value. -/
theorem C5_counter_semantics :
    run counterProg 15 = .ok () cS6 ∧
    (run counterProg 15).output = ["1", "2"] ∧
    lookupVar cS3 "count" 1 = some (.num 1) ∧
    lookupVar cS5 "count" 1 = some (.num 2) ∧
    (evalStmt 12 incrCallStmt 0 cS2).value? = some Value.null ∧
    (evalStmt 10 incrCallStmt 0 cS4).value? = some Value.null := by
  have hrun : run counterProg 15 = .ok () cS6 := by
    simp only [run, counterProg, evalStmts, cStep1, cStep2, cStep3, cStep4, cStep5, cStep6]
  refine ⟨hrun, ?_, rfl, rfl, ?_, ?_⟩
  · rw [hrun]; rfl
  · rw [cStep3]; rfl
  · rw [cStep5]; rfl

/-! ### C9: fresh field environments per instantiation -/

theorem stExtends_refl (st : State) : stExtends st st :=
  ⟨le_refl _, fun _ _ => rfl, [], by simp⟩

theorem stExtends_trans {s1 s2 s3 : State} (h1 : stExtends s1 s2)
    (h2 : stExtends s2 s3) : stExtends s1 s3 := by
  obtain ⟨hl1, hp1, l1, hh1⟩ := h1
  obtain ⟨hl2, hp2, l2, hh2⟩ := h2
  exact ⟨le_trans hl1 hl2,
    fun e he => (hp2 e (lt_of_lt_of_le he hl1)).trans (hp1 e he),
    l1 ++ l2, by simp [hh2, hh1]⟩

theorem stExtends_allocEnv (st : State) (p : Option Nat) :
    stExtends st (allocEnv st p).2 := by
  refine ⟨by simp [allocEnv], fun e he => ?_, [], by simp [allocEnv]⟩
  simp [allocEnv, List.getElem?_append, he]

theorem stExtends_allocHeap (st : State) (o : HeapObj) :
    stExtends st (allocHeap st o).2 :=
  ⟨le_refl _, fun _ _ => rfl, [o], rfl⟩

theorem stExtends_defineIn (st : State) (e : Nat) (name : String) (b : Binding) :
    stExtends st (defineIn st e name b) := by
  unfold defineIn
  cases hf : getFrame st e with
  | none => exact stExtends_refl st
  | some f =>
    refine ⟨by simp [setFrame], fun e' he' => ?_, [], by simp [setFrame]⟩
    by_cases hee : e' = e
    · subst hee
      unfold getFrame at hf
      have hlt : e' < st.envs.length := he'
      simp [setFrame, List.getElem?_set, hlt, List.get?_eq_getElem?] at hf ⊢
      simp [hf]
    · simp [setFrame, List.getElem?_set, Ne.symm hee]

theorem bindMethods_envs (ms : List (String × TaskDecl)) (e : Nat)
    (props : List (String × Value)) (st : State) :
    (bindMethods ms e props st).2.envs = st.envs := by
  induction ms generalizing props st with
  | nil => rfl
  | cons m rest ih => simp [bindMethods, ih, allocHeap]

theorem bindMethods_heap (ms : List (String × TaskDecl)) (e : Nat)
    (props : List (String × Value)) (st : State) :
    ∃ l, (bindMethods ms e props st).2.heap = st.heap ++ l := by
  induction ms generalizing props st with
  | nil => exact ⟨[], by simp [bindMethods]⟩
  | cons m rest ih =>
    obtain ⟨l, hl⟩ := ih (alistSet props m.1 (.ref st.heap.length))
      (allocHeap st (.fn (.method m.2 e))).2
    exact ⟨.fn (.method m.2 e) :: l, by simp [bindMethods, allocHeap] at hl ⊢; simp [hl]⟩

theorem bindImpls_envs (is : List (String × List (String × TaskDecl))) (e : Nat)
    (props : List (String × Value)) (st : State) :
    (bindImpls is e props st).2.envs = st.envs := by
  induction is generalizing props st with
  | nil => rfl
  | cons m rest ih => simp [bindImpls, ih, bindMethods_envs]

theorem bindImpls_heap (is : List (String × List (String × TaskDecl))) (e : Nat)
    (props : List (String × Value)) (st : State) :
    ∃ l, (bindImpls is e props st).2.heap = st.heap ++ l := by
  induction is generalizing props st with
  | nil => exact ⟨[], by simp [bindImpls]⟩
  | cons m rest ih =>
    obtain ⟨l1, hl1⟩ := bindMethods_heap m.2 e props st
    obtain ⟨l2, hl2⟩ := ih (bindMethods m.2 e props st).1 (bindMethods m.2 e props st).2
    exact ⟨l1 ++ l2, by simp [bindImpls, hl2, hl1]⟩

theorem syncExtendsAll : ∀ fuel : Nat,
    (∀ node env st, stExtends st (evalExprSync fuel node env st).state) ∧
    (∀ es env st, stExtends st (evalExprsSync fuel es env st).state) ∧
    (∀ ps env st, stExtends st (evalPropsSync fuel ps env st).state) ∧
    (∀ f args st, stExtends st (callFnSync fuel f args st).state) ∧
    (∀ g args st, stExtends st (instantiateGroup fuel g args st).state) ∧
    (∀ flds args i e st, stExtends st (initFields fuel flds args i e st).state) := by
  intro fuel
  induction fuel with
  | zero =>
    exact ⟨fun _ _ st => stExtends_refl st, fun _ _ st => stExtends_refl st,
           fun _ _ st => stExtends_refl st, fun _ _ st => stExtends_refl st,
           fun _ _ st => stExtends_refl st, fun _ _ _ _ st => stExtends_refl st⟩
  | succ fuel ih =>
    obtain ⟨ihE, ihEs, ihPs, ihC, ihG, ihF⟩ := ih
    refine ⟨?_, ?_, ?_, ?_, ?_, ?_⟩
    · intro node env st
      cases node
      all_goals try exact stExtends_refl st
      case ident name =>
        simp only [evalExprSync]
        cases lookupVar st name env <;> exact stExtends_refl st
      case binary op left right =>
        cases hr1 : evalExprSync fuel left env st with
        | err m st' =>
          have h1 := ihE left env st; rw [hr1] at h1
          simp only [evalExprSync, hr1]; exact h1
        | ok lv st1 =>
          have h1 := ihE left env st; rw [hr1] at h1
          cases hr2 : evalExprSync fuel right env st1 with
          | err m st' =>
            have h2 := ihE right env st1; rw [hr2] at h2
            simp only [evalExprSync, hr1, hr2]
            exact stExtends_trans h1 h2
          | ok rv st2 =>
            have h2 := ihE right env st1; rw [hr2] at h2
            simp only [evalExprSync, hr1, hr2]
            cases applyBinop st2 op lv rv <;> exact stExtends_trans h1 h2
      case arrayLit elems =>
        cases hr1 : evalExprsSync fuel elems env st with
        | err m st' =>
          have h1 := ihEs elems env st; rw [hr1] at h1
          simp only [evalExprSync, hr1]; exact h1
        | ok vs st1 =>
          have h1 := ihEs elems env st; rw [hr1] at h1
          simp only [evalExprSync, hr1]
          exact stExtends_trans h1 (stExtends_allocHeap st1 (.arr vs))
      case objectLit props =>
        cases hr1 : evalPropsSync fuel props env st with
        | err m st' =>
          have h1 := ihPs props env st; rw [hr1] at h1
          simp only [evalExprSync, hr1]; exact h1
        | ok ps st1 =>
          have h1 := ihPs props env st; rw [hr1] at h1
          simp only [evalExprSync, hr1]
          exact stExtends_trans h1 (stExtends_allocHeap st1 (.obj ps))
      case call callee args =>
        cases hr1 : evalExprSync fuel callee env st with
        | err m st' =>
          have h1 := ihE callee env st; rw [hr1] at h1
          simp only [evalExprSync, hr1]; exact h1
        | ok cv st1 =>
          have h1 := ihE callee env st; rw [hr1] at h1
          cases hr2 : evalExprsSync fuel args env st1 with
          | err m st' =>
            have h2 := ihEs args env st1; rw [hr2] at h2
            simp only [evalExprSync, hr1, hr2]
            exact stExtends_trans h1 h2
          | ok avs st2 =>
            have h2 := ihEs args env st1; rw [hr2] at h2
            have h12 := stExtends_trans h1 h2
            simp only [evalExprSync, hr1, hr2]
            cases cv with
            | ref r =>
              cases hh : getHeap st2 r with
              | none => simp only [hh]; exact h12
              | some o =>
                cases o with
                | fn f =>
                  simp only [hh]
                  exact stExtends_trans h12 (ihC f avs st2)
                | arr a => simp only [hh]; exact h12
                | obj a => simp only [hh]; exact h12
                | inst a => simp only [hh]; exact h12
            | null => exact h12
            | undef => exact h12
            | num a => exact h12
            | str a => exact h12
            | bool a => exact h12
    · intro es env st
      cases es with
      | nil => exact stExtends_refl st
      | cons e rest =>
        cases hr1 : evalExprSync fuel e env st with
        | err m st' =>
          have h1 := ihE e env st; rw [hr1] at h1
          simp only [evalExprsSync, hr1]; exact h1
        | ok v st1 =>
          have h1 := ihE e env st; rw [hr1] at h1
          cases hr2 : evalExprsSync fuel rest env st1 with
          | err m st' =>
            have h2 := ihEs rest env st1; rw [hr2] at h2
            simp only [evalExprsSync, hr1, hr2]
            exact stExtends_trans h1 h2
          | ok vs st2 =>
            have h2 := ihEs rest env st1; rw [hr2] at h2
            simp only [evalExprsSync, hr1, hr2]
            exact stExtends_trans h1 h2
    · intro ps env st
      cases ps with
      | nil => exact stExtends_refl st
      | cons p rest =>
        cases hr1 : evalExprSync fuel p.2 env st with
        | err m st' =>
          have h1 := ihE p.2 env st; rw [hr1] at h1
          simp only [evalPropsSync, hr1]; exact h1
        | ok v st1 =>
          have h1 := ihE p.2 env st; rw [hr1] at h1
          cases hr2 : evalPropsSync fuel rest env st1 with
          | err m st' =>
            have h2 := ihPs rest env st1; rw [hr2] at h2
            simp only [evalPropsSync, hr1, hr2]
            exact stExtends_trans h1 h2
          | ok vs st2 =>
            have h2 := ihPs rest env st1; rw [hr2] at h2
            simp only [evalPropsSync, hr1, hr2]
            exact stExtends_trans h1 h2
    · intro f args st
      cases f with
      | ctor g => exact ihG g args st
      | task a b => exact stExtends_refl st
      | method a b => exact stExtends_refl st
    · intro g args st
      cases hg : alistGet st.groups g with
      | none => simp only [instantiateGroup, hg]; exact stExtends_refl st
      | some gdef =>
        have hA := stExtends_allocEnv st (some 0)
        cases hr1 : initFields fuel gdef.fields args 0 (allocEnv st (some 0)).1
            (allocEnv st (some 0)).2 with
        | err m st' =>
          have h1 := ihF gdef.fields args 0 (allocEnv st (some 0)).1 (allocEnv st (some 0)).2
          rw [hr1] at h1
          simp only [instantiateGroup, hg, hr1]
          exact stExtends_trans hA h1
        | ok u st2 =>
          have h1 := ihF gdef.fields args 0 (allocEnv st (some 0)).1 (allocEnv st (some 0)).2
          rw [hr1] at h1
          have h2 := stExtends_trans hA h1
          have hbm : stExtends st2 (bindMethods gdef.methods (allocEnv st (some 0)).1
              [("__groupName", .str g)] st2).2 := by
            obtain ⟨l, hl⟩ := bindMethods_heap gdef.methods (allocEnv st (some 0)).1
              [("__groupName", .str g)] st2
            exact ⟨by rw [bindMethods_envs], fun e he => by rw [bindMethods_envs], l, hl⟩
          have hbi : stExtends (bindMethods gdef.methods (allocEnv st (some 0)).1
              [("__groupName", .str g)] st2).2
              (bindImpls gdef.implementations (allocEnv st (some 0)).1
                (bindMethods gdef.methods (allocEnv st (some 0)).1
                  [("__groupName", .str g)] st2).1
                (bindMethods gdef.methods (allocEnv st (some 0)).1
                  [("__groupName", .str g)] st2).2).2 := by
            obtain ⟨l, hl⟩ := bindImpls_heap gdef.implementations (allocEnv st (some 0)).1
              (bindMethods gdef.methods (allocEnv st (some 0)).1
                [("__groupName", .str g)] st2).1
              (bindMethods gdef.methods (allocEnv st (some 0)).1
                [("__groupName", .str g)] st2).2
            exact ⟨by rw [bindImpls_envs], fun e he => by rw [bindImpls_envs], l, hl⟩
          simp only [instantiateGroup, hg, hr1]
          exact stExtends_trans h2 (stExtends_trans hbm (stExtends_trans hbi
            (stExtends_allocHeap _ _)))
    · intro flds args i e st
      cases flds with
      | nil => exact stExtends_refl st
      | cons fld rest =>
        cases hi : fld.initializer with
        | some init =>
          cases hr1 : evalExprSync fuel init e st with
          | err m st' =>
            have h1 := ihE init e st; rw [hr1] at h1
            simp only [initFields, hi, hr1]; exact h1
          | ok v st1 =>
            have h1 := ihE init e st; rw [hr1] at h1
            have h2 := stExtends_defineIn st1 e fld.name ⟨v, fld.mutable⟩
            have h3 := ihF rest args i e (defineIn st1 e fld.name ⟨v, fld.mutable⟩)
            simp only [initFields, hi, hr1]
            exact stExtends_trans h1 (stExtends_trans h2 h3)
        | none =>
          cases ha : args.get? i with
          | some v =>
            have h2 := stExtends_defineIn st e fld.name ⟨v, fld.mutable⟩
            have h3 := ihF rest args (i + 1) e (defineIn st e fld.name ⟨v, fld.mutable⟩)
            simp only [initFields, hi, ha]
            exact stExtends_trans h2 h3
          | none =>
            have h2 := stExtends_defineIn st e fld.name ⟨.null, fld.mutable⟩
            have h3 := ihF rest args i e (defineIn st e fld.name ⟨.null, fld.mutable⟩)
            simp only [initFields, hi, ha]
            exact stExtends_trans h2 h3

theorem stExtends_bindMethods (ms : List (String × TaskDecl)) (e : Nat)
    (props : List (String × Value)) (st : State) :
    stExtends st (bindMethods ms e props st).2 := by
  obtain ⟨l, hl⟩ := bindMethods_heap ms e props st
  exact ⟨by rw [bindMethods_envs], fun e' he' => by rw [bindMethods_envs], l, hl⟩

theorem stExtends_bindImpls (is : List (String × List (String × TaskDecl))) (e : Nat)
    (props : List (String × Value)) (st : State) :
    stExtends st (bindImpls is e props st).2 := by
  obtain ⟨l, hl⟩ := bindImpls_heap is e props st
  exact ⟨by rw [bindImpls_envs], fun e' he' => by rw [bindImpls_envs], l, hl⟩

theorem getHeap_alloc (st : State) (o : HeapObj) :
    getHeap (allocHeap st o).2 (allocHeap st o).1 = some o := by
  simp [getHeap, allocHeap]

theorem getHeap_mono {st st' : State} {r : Nat} {o : HeapObj}
    (hext : stExtends st st') (h : getHeap st r = some o) :
    getHeap st' r = some o := by
  obtain ⟨-, -, l, hl⟩ := hext
  unfold getHeap at h ⊢
  rw [hl]
  have hr : r < st.heap.length := by
    by_contra hge
    rw [List.get?_eq_none.2 (le_of_not_lt hge)] at h
    exact Option.noConfusion h
  rw [List.get?_eq_getElem?] at h ⊢
  simp [List.getElem?_append, hr, h]

theorem getFrame_defineIn_ne {st : State} {e e' : Nat} {n : String} {b : Binding}
    (hne : e' ≠ e) : getFrame (defineIn st e n b) e' = getFrame st e' := by
  unfold defineIn
  cases hf : getFrame st e with
  | none => rfl
  | some f =>
    simp [getFrame, setFrame, List.get?_eq_getElem?, List.getElem?_set, Ne.symm hne]

theorem getFrame_setHeap (st : State) (r : Nat) (o : HeapObj) (e : Nat) :
    getFrame (setHeap st r o) e = getFrame st e := rfl

theorem memberSet_other_frame {st : State} {r : Nat} {i : InstObj}
    {key : String} {v : Value} {st3 : State}
    (hheap : getHeap st r = some (.inst i))
    (h : memberSet st (.ref r) key v = .ok st3) :
    ∀ e', e' ≠ i.envId → getFrame st3 e' = getFrame st e' := by
  intro e' hne
  simp only [memberSet, hheap] at h
  by_cases hk : key ∈ i.fieldNames
  · simp only [hk, if_true] at h
    cases hf : getFrame st i.envId with
    | none => simp only [hf] at h; exact absurd h (by simp)
    | some f =>
      cases hb : alistGet f.vars key with
      | none => simp only [hf, hb] at h; exact absurd h (by simp)
      | some b =>
        by_cases hm : b.mutable
        · simp only [hf, hb, hm, if_true] at h
          cases h
          exact getFrame_defineIn_ne hne
        · simp [hf, hb, hm] at h
  · simp only [hk, if_false] at h
    cases h
    rfl

theorem instantiateGroup_ok {fuel : Nat} {g : String} {args : List Value}
    {st : State} {v : Value} {st' : State}
    (h : instantiateGroup fuel g args st = .ok v st') :
    ∃ r i, v = .ref r ∧ getHeap st' r = some (.inst i) ∧
      i.envId = st.envs.length ∧
      st.envs.length < st'.envs.length ∧
      (getFrame st' i.envId).map Frame.parent = some (some 0) ∧
      stExtends st st' := by
  cases fuel with
  | zero => exact absurd h (by simp [instantiateGroup])
  | succ fuel =>
    cases hg : alistGet st.groups g with
    | none =>
      rw [instantiateGroup, hg] at h
      exact absurd h (by simp)
    | some gdef =>
      cases hr1 : initFields fuel gdef.fields args 0 (allocEnv st (some 0)).1
          (allocEnv st (some 0)).2 with
      | err m st'' =>
        simp only [instantiateGroup, hg, hr1] at h
        exact absurd h (by simp)
      | ok u st2 =>
        simp only [instantiateGroup, hg, hr1] at h
        injection h with hv hst
        subst hv hst
        have hext := (syncExtendsAll fuel).2.2.2.2.2 gdef.fields args 0
          (allocEnv st (some 0)).1 (allocEnv st (some 0)).2
        rw [hr1] at hext
        simp only [Res.state] at hext
        have hlen : st.envs.length + 1 ≤ st2.envs.length := by
          have h1 := hext.1
          simpa [allocEnv] using h1
        have hpar : (st2.envs.get? st.envs.length).map Frame.parent = some (some 0) := by
          have h2 := hext.2.1 st.envs.length (by simp [allocEnv])
          rw [h2]
          simp [allocEnv, List.get?_eq_getElem?, List.getElem?_append]
        refine ⟨_, _, rfl, getHeap_alloc _ _, rfl, ?_, ?_, ?_⟩
        · simp only [allocHeap, bindImpls_envs, bindMethods_envs]
          omega
        · show ((allocHeap _ _).2.envs.get? (allocEnv st (some 0)).1).map Frame.parent
            = some (some 0)
          simp only [allocHeap, bindImpls_envs, bindMethods_envs]
          exact hpar
        · exact stExtends_trans (stExtends_allocEnv st (some 0))
            (stExtends_trans hext
              (stExtends_trans (stExtends_bindMethods _ _ _ _)
                (stExtends_trans (stExtends_bindImpls _ _ _ _)
                  (stExtends_allocHeap _ _))))
/-- C9: every two instantiations of the same group definition allocate
distinct fresh field environments, each with the global environment
(frame 0) as parent, so the instances never share field storage: any
successful `memberSet` property write through one instance reference
leaves the other instance's field environment frame untouched. -/
theorem C9_fresh_instance_env
    (f1 f2 : Nat) (g : String) (a1 a2 : List Value) (st st1 st2 : State)
    (v1 v2 : Value)
    (h1 : instantiateGroup f1 g a1 st = .ok v1 st1)
    (h2 : instantiateGroup f2 g a2 st1 = .ok v2 st2) :
    ∃ r1 r2 i1 i2,
      v1 = .ref r1 ∧ v2 = .ref r2 ∧
      getHeap st2 r1 = some (.inst i1) ∧ getHeap st2 r2 = some (.inst i2) ∧
      i1.envId = st.envs.length ∧ i2.envId = st1.envs.length ∧
      i1.envId ≠ i2.envId ∧
      (getFrame st2 i1.envId).map Frame.parent = some (some 0) ∧
      (getFrame st2 i2.envId).map Frame.parent = some (some 0) ∧
      (∀ key v st3, memberSet st2 (.ref r1) key v = .ok st3 →
        getFrame st3 i2.envId = getFrame st2 i2.envId) ∧
      (∀ key v st3, memberSet st2 (.ref r2) key v = .ok st3 →
        getFrame st3 i1.envId = getFrame st2 i1.envId) := by
  obtain ⟨r1, i1, hv1, hh1, hid1, hlt1, hp1, he1⟩ := instantiateGroup_ok h1
  obtain ⟨r2, i2, hv2, hh2, hid2, hlt2, hp2, he2⟩ := instantiateGroup_ok h2
  have hh1b : getHeap st2 r1 = some (.inst i1) := getHeap_mono he2 hh1
  have hne : i1.envId ≠ i2.envId := by
    rw [hid1, hid2]; omega
  have hp1b : (getFrame st2 i1.envId).map Frame.parent = some (some 0) := by
    have hq := he2.2.1 i1.envId (by rw [hid1]; exact hlt1)
    show (st2.envs.get? i1.envId).map Frame.parent = some (some 0)
    rw [hq]
    exact hp1
  refine ⟨r1, r2, i1, i2, hv1, hv2, hh1b, hh2, hid1, hid2, hne, hp1b, hp2, ?_, ?_⟩
  · intro key v st3 hms
    exact memberSet_other_frame hh1b hms i2.envId (Ne.symm hne)
  · intro key v st3 hms
    exact memberSet_other_frame hh2 hms i1.envId hne

theorem C9_fresh_instance_env_witness :
    ∃ r1 r2 i1 i2,
      (Value.ref 2 : Value) = .ref r1 ∧ (Value.ref 4 : Value) = .ref r2 ∧
      getHeap cJ2 r1 = some (.inst i1) ∧ getHeap cJ2 r2 = some (.inst i2) ∧
      i1.envId = cS1.envs.length ∧ i2.envId = cJ1.envs.length ∧
      i1.envId ≠ i2.envId ∧
      (getFrame cJ2 i1.envId).map Frame.parent = some (some 0) ∧
      (getFrame cJ2 i2.envId).map Frame.parent = some (some 0) ∧
      (∀ key v st3, memberSet cJ2 (.ref r1) key v = .ok st3 →
        getFrame st3 i2.envId = getFrame cJ2 i2.envId) ∧
      (∀ key v st3, memberSet cJ2 (.ref r2) key v = .ok st3 →
        getFrame st3 i1.envId = getFrame cJ2 i1.envId) :=
  C9_fresh_instance_env 6 6 "Counter" [] [] cS1 cJ1 cJ2 (.ref 2) (.ref 4) (by rfl) (by rfl)

end Theorems

end Flick
